import Mathlib

/-!
# Verification of the deno_lint rule engine (four rules)

A shallow embedding of the four lint rules of the repository:

* `no_duplicate_case.rs` — `NoDuplicateCase` (rule code `no-duplicate-case`)
* `no_empty_interface.rs` — `NoEmptyInterface` (rule code `no-empty-interface`)
* `no_ex_assign.rs` — `NoExAssign` (rule code `no-ex-assign`)
* `no_extra_semi.rs` — `NoExtraSemi` (rule code `no-extra-semi`)

Each rule is a swc `Visit` visitor.  The embedding models the swc AST
fragment the rules can observe, the default walker of `swc_ecmascript::visit`
(a method that is *not* overridden recurses into all children in field
order; an overridden method recurses only where it explicitly re-dispatches),
the `noop_visit_type!` macro (visits of TypeScript type-only nodes become
no-ops, so type-only subtrees are never entered), and the external
capabilities the rules consume: the source map (`span_to_snippet`) and the
scope map (`scope.var`).

Each visitor is embedded as a pure function from the AST to the ordered
list of diagnostics it appends via `add_diagnostic_with_hint`.  The
`NoDuplicateCase` visitor calls `span_to_snippet(span).unwrap()`, which
panics when the snippet is unresolvable; its embedding therefore returns
`Option (List Diagnostic)`, with `none` modelling the panic.
-/

set_option linter.unusedVariables false

/-- A source span: a half-open character range `[lo, hi)` into the original
source (`swc_common::Span`; the file identifier is fixed, one program). -/
structure Span where
  lo : Nat
  hi : Nat
deriving DecidableEq, Repr

/-- An identifier occurrence.  `ctxt` models swc's syntax context, which the
scope analysis uses to distinguish same-named bindings from different scopes. -/
structure Ident where
  name : String
  ctxt : Nat
deriving DecidableEq, Repr

/-- Binding kinds from `crate::scopes::BindingKind` (the spec's data model
lists `Var, Let, Const, Function, Class, Param, CatchClause, Import, Type`;
`Type` is spelled `TypeBinding` here because `Type` is reserved in Lean). -/
inductive BindingKind where
  | Var | Let | Const | Function | Class | Param | CatchClause | Import | TypeBinding
deriving DecidableEq, Repr

/-- A resolved binding: its kind and its declaration site
(the spec's `Variable { kind, declarationSpan }`; the rules use only `kind`). -/
structure Variable where
  kind : BindingKind
  declarationSpan : Span
deriving DecidableEq, Repr

/-- The scope map capability: `context.scope.var(&id)`; unresolved
identifiers yield `none`. -/
abbrev ScopeMap : Type := Ident → Option Variable

/-- The span-resolver capability: `context.source_map.span_to_snippet(span)`
returns `Result<String, _>`; `none` models the error case. -/
abbrev SourceMap : Type := Span → Option String

/-- A reported diagnostic, as appended by
`Context::add_diagnostic_with_hint(span, code, message, hint)`. -/
structure Diagnostic where
  span : Span
  code : String
  message : String
  hint : String
deriving DecidableEq, Repr

/-- A member of a TypeScript interface body (`TsTypeElement` inside
`TsInterfaceBody`).  No visitor of the four rules ever looks inside one:
`NoEmptyInterface` only tests `body.body.is_empty()` and does not
re-dispatch into the declaration, and the other three rules expand
`noop_visit_type!`, which makes the interface visit a no-op.  Only the
member's span is therefore modelled. -/
inductive TsInterfaceMember where
  | mk (span : Span)
deriving DecidableEq, Repr

/-- One entry of an interface's `extends` clause (`TsExprWithTypeArgs`).
The rules only count these entries, so only the span is modelled. -/
inductive TsExprWithTypeArgs where
  | mk (span : Span)
deriving DecidableEq, Repr

/-- `TsInterfaceBody`: the member list of an interface declaration. -/
structure TsInterfaceBody where
  body : List TsInterfaceMember
  span : Span
deriving DecidableEq, Repr

/-- `TsInterfaceDecl`.  The `extends` field is spelled `extendsList`
(`extends` is reserved in Lean); `typeParams` records whether the
declaration has generic type parameters (never examined by the rule). -/
structure TsInterfaceDecl where
  id : Ident
  typeParams : Bool
  extendsList : List TsExprWithTypeArgs
  body : TsInterfaceBody
  span : Span
deriving DecidableEq, Repr

mutual

/-- Expressions, restricted to the shapes the four visitors can distinguish.
`fnExpr` stands for any expression that nests a statement list (function and
arrow expressions); `binExpr` for any expression with two expression
children; `tsAsExpr` for an expression with a TypeScript type child
(`e as T`); `lit` for any leaf expression. -/
inductive Expr where
  | ident (id : Ident) (span : Span)
  | lit (span : Span)
  | assignExpr (left : Pat) (right : Expr) (span : Span)
  | binExpr (left : Expr) (right : Expr) (span : Span)
  | fnExpr (body : List Stmt) (span : Span)
  | tsAsExpr (expr : Expr) (typeAnn : TsType) (span : Span)

/-- Assignment-target patterns (`swc` `Pat` / `PatOrExpr` as consumed by
`find_lhs_ids`): plain identifier, member-expression target, array pattern
(with holes), object pattern, default-value pattern, rest pattern, and a
non-identifier expression leaf. -/
inductive Pat where
  | identPat (id : Ident) (span : Span)
  | memberPat (span : Span)
  | arrayPat (elems : List (Option Pat)) (span : Span)
  | objectPat (props : List ObjPatProp) (span : Span)
  | assignPat (left : Pat) (right : Expr) (span : Span)
  | restPat (arg : Pat) (span : Span)
  | exprPat (expr : Expr) (span : Span)

/-- Object-pattern properties: `{k: p}`, shorthand `{x}` (possibly with a
default), and rest `{...r}`. -/
inductive ObjPatProp where
  | keyValue (value : Pat) (span : Span)
  | shorthand (id : Ident) (span : Span)
  | rest (arg : Pat) (span : Span)

/-- TypeScript types, restricted to what is needed to host an expression
inside a type-only subtree: a keyword type and a type literal whose
property signatures may carry a computed key expression. -/
inductive TsType where
  | keywordType (span : Span)
  | typeLit (members : List TsTypeElement) (span : Span)

/-- A type-literal member: a property signature with a (computed) key
expression. -/
inductive TsTypeElement where
  | propertySig (key : Expr) (span : Span)

/-- Statements, covering every node kind one of the four visitors treats
specially, plus enough context nodes (blocks, classes, modules) to nest
them.  `tsModuleDecl` is a namespace / `declare module` body (not a
type-only node: its body holds statements and is walked by the default
walker even under `noop_visit_type!`). -/
inductive Stmt where
  | emptyStmt (span : Span)
  | exprStmt (expr : Expr) (span : Span)
  | blockStmt (stmts : List Stmt) (span : Span)
  | ifStmt (test : Expr) (cons : Stmt) (alt : Option Stmt) (span : Span)
  | switchStmt (discriminant : Expr) (cases : List SwitchCase) (span : Span)
  | whileStmt (test : Expr) (body : Stmt) (span : Span)
  | doWhileStmt (test : Expr) (body : Stmt) (span : Span)
  | forStmt (init : Option Expr) (test : Option Expr) (update : Option Expr)
      (body : Stmt) (span : Span)
  | forInStmt (left : Pat) (right : Expr) (body : Stmt) (span : Span)
  | forOfStmt (left : Pat) (right : Expr) (body : Stmt) (span : Span)
  | withStmt (obj : Expr) (body : Stmt) (span : Span)
  | labeledStmt (label : Ident) (body : Stmt) (span : Span)
  | classDecl (id : Ident) (body : List ClassMember) (span : Span)
  | tsInterfaceDeclStmt (decl : TsInterfaceDecl)
  | tsModuleDecl (id : Ident) (body : List Stmt) (span : Span)
  | tsTypeAliasDecl (id : Ident) (typeAnn : TsType) (span : Span)

/-- A `case` / `default` clause of a `switch` statement: optional test
expression (`none` for `default`) and consequent statements. -/
inductive SwitchCase where
  | mk (test : Option Expr) (cons : List Stmt) (span : Span)

/-- Class members: a method (its function body) or `ClassMember::Empty`,
which wraps an `EmptyStmt` (a stray semicolon between members); the wrapped
empty statement's span is stored. -/
inductive ClassMember where
  | method (body : List Stmt) (span : Span)
  | emptyMember (span : Span)

end

/-- A program is its list of top-level statements (module items). -/
abbrev Program : Type := List Stmt

/-- The `span()` method of `swc_common::Spanned` on expressions. -/
def Expr.span : Expr → Span
  | .ident _ s => s
  | .lit s => s
  | .assignExpr _ _ s => s
  | .binExpr _ _ s => s
  | .fnExpr _ s => s
  | .tsAsExpr _ _ s => s

/-- Test-expression field of a switch case. -/
def SwitchCase.test : SwitchCase → Option Expr
  | .mk t _ _ => t

/-- Consequent statements of a switch case. -/
def SwitchCase.cons : SwitchCase → List Stmt
  | .mk _ c _ => c

mutual

/-- Modelled from the spec: `find_lhs_ids` lives in `crate::swc_util`,
which is not under `src/`; §4.5 of the spec gives its contract.  Given an
assignment target it returns the identifiers the assignment writes: a plain
identifier contributes itself; member accesses and non-identifier leaves
contribute nothing; array and object patterns contribute the union (in
order) of their element / value patterns including rests; a default-value
pattern contributes its target's identifiers (the default expression's
identifiers are reads). -/
def find_lhs_ids : Pat → List Ident
  | .identPat id _ => [id]
  | .memberPat _ => []
  | .arrayPat elems _ => find_lhs_ids_elems elems
  | .objectPat props _ => find_lhs_ids_props props
  | .assignPat left _ _ => find_lhs_ids left
  | .restPat arg _ => find_lhs_ids arg
  | .exprPat _ _ => []

/-- LHS identifiers of the elements of an array pattern (holes contribute
nothing). -/
def find_lhs_ids_elems : List (Option Pat) → List Ident
  | [] => []
  | none :: rest => find_lhs_ids_elems rest
  | some p :: rest => find_lhs_ids p ++ find_lhs_ids_elems rest

/-- LHS identifiers of the properties of an object pattern. -/
def find_lhs_ids_props : List ObjPatProp → List Ident
  | [] => []
  | .keyValue value _ :: rest => find_lhs_ids value ++ find_lhs_ids_props rest
  | .shorthand id _ :: rest => id :: find_lhs_ids_props rest
  | .rest arg _ :: rest => find_lhs_ids arg ++ find_lhs_ids_props rest

end

/-! ## An abstract model of `std::collections::HashSet<String>`

`NoDuplicateCase` is the only rule with per-visit mutable state: a
`HashSet<String>` of seen case-test snippets, used through
`seen.insert(txt)` (which returns `false` when `txt` was already present).
The set is modelled abstractly by any type with an `insert` and a boolean
membership satisfying the two `HashSet` laws the rule relies on, so that
the theorems show the diagnostics do not depend on the hash implementation.
-/

/-- An implementation of a set of strings: carrier, empty set, insertion
and boolean membership, with the two membership laws of `HashSet`. -/
structure StrSet where
  S : Type
  empty : S
  insert : S → String → S
  mem : S → String → Bool
  mem_empty : ∀ y, mem empty y = false
  mem_insert : ∀ s x y, mem (insert s x) y = (y == x || mem s y)

/-- The reference implementation: a list of the inserted strings. -/
def listStrSet : StrSet where
  S := List String
  empty := []
  insert s x := x :: s
  mem s y := s.any (fun z => y == z)
  mem_empty := by intro y; rfl
  mem_insert := by intro s x y; simp [List.any_cons]

/-- Concatenation of two optional diagnostic lists; `none` (a panic in
either part of the traversal) makes the whole run `none`. -/
def oapp : Option (List Diagnostic) → Option (List Diagnostic) → Option (List Diagnostic)
  | some xs, some ys => some (xs ++ ys)
  | _, _ => none

namespace NoDuplicateCase

/-- `NoDuplicateCase::code()`. -/
def code : String := "no-duplicate-case"

/-- The message passed to `add_diagnostic_with_hint` in
`visit_switch_stmt`. -/
def message : String := "Duplicate values in `case` are not allowed"

/-- The hint passed to `add_diagnostic_with_hint` in `visit_switch_stmt`. -/
def hint : String := "Remove or rename the duplicate case clause"

/-- The body of `NoDuplicateCaseVisitor::visit_switch_stmt`: iterate the
cases in order with the seen-snippet set (started from `σ.empty` by the
caller); for a case with a test, resolve the test span to its snippet with
`span_to_snippet(span).unwrap()` (`none` = the unwrap panics), and report a
diagnostic at the test span when inserting the snippet collides. -/
def checkCases (σ : StrSet) (sm : SourceMap) :
    List SwitchCase → σ.S → Option (List Diagnostic)
  | [], _ => some []
  | .mk none _ _ :: rest, seen => checkCases σ sm rest seen
  | .mk (some test) _ _ :: rest, seen =>
    match sm test.span with
    | none => none
    | some test_txt =>
      match checkCases σ sm rest (σ.insert seen test_txt) with
      | none => none
      | some ds =>
        some ((if σ.mem seen test_txt
               then [⟨test.span, code, message, hint⟩] else []) ++ ds)

mutual

/-- Traversal of `NoDuplicateCaseVisitor` over a statement.  The visitor
overrides only `visit_switch_stmt`, and that override never re-dispatches
into the switch's children, so neither the discriminant nor the case bodies
are entered; every other statement is walked by the default walker, except
that `noop_visit_type!` makes type-only nodes (interface and type-alias
declarations, type annotations) no-ops. -/
def ndcStmt (σ : StrSet) (sm : SourceMap) : Stmt → Option (List Diagnostic)
  | .emptyStmt _ => some []
  | .exprStmt e _ => ndcExpr σ sm e
  | .blockStmt ss _ => ndcStmts σ sm ss
  | .ifStmt t c a _ =>
    oapp (ndcExpr σ sm t) (oapp (ndcStmt σ sm c) (ndcOptStmt σ sm a))
  | .switchStmt _ cases _ => checkCases σ sm cases σ.empty
  | .whileStmt t b _ => oapp (ndcExpr σ sm t) (ndcStmt σ sm b)
  | .doWhileStmt t b _ => oapp (ndcExpr σ sm t) (ndcStmt σ sm b)
  | .forStmt i t u b _ =>
    oapp (ndcOptExpr σ sm i)
      (oapp (ndcOptExpr σ sm t) (oapp (ndcOptExpr σ sm u) (ndcStmt σ sm b)))
  | .forInStmt l r b _ =>
    oapp (ndcPat σ sm l) (oapp (ndcExpr σ sm r) (ndcStmt σ sm b))
  | .forOfStmt l r b _ =>
    oapp (ndcPat σ sm l) (oapp (ndcExpr σ sm r) (ndcStmt σ sm b))
  | .withStmt o b _ => oapp (ndcExpr σ sm o) (ndcStmt σ sm b)
  | .labeledStmt _ b _ => ndcStmt σ sm b
  | .classDecl _ ms _ => ndcMembers σ sm ms
  | .tsInterfaceDeclStmt _ => some []
  | .tsModuleDecl _ body _ => ndcStmts σ sm body
  | .tsTypeAliasDecl _ _ _ => some []

/-- Default walk of a statement list. -/
def ndcStmts (σ : StrSet) (sm : SourceMap) : List Stmt → Option (List Diagnostic)
  | [] => some []
  | s :: rest => oapp (ndcStmt σ sm s) (ndcStmts σ sm rest)

/-- Default walk of an optional statement. -/
def ndcOptStmt (σ : StrSet) (sm : SourceMap) : Option Stmt → Option (List Diagnostic)
  | none => some []
  | some s => ndcStmt σ sm s

/-- Default walk of an expression (no expression method is overridden). -/
def ndcExpr (σ : StrSet) (sm : SourceMap) : Expr → Option (List Diagnostic)
  | .ident _ _ => some []
  | .lit _ => some []
  | .assignExpr l r _ => oapp (ndcPat σ sm l) (ndcExpr σ sm r)
  | .binExpr l r _ => oapp (ndcExpr σ sm l) (ndcExpr σ sm r)
  | .fnExpr body _ => ndcStmts σ sm body
  | .tsAsExpr e _ _ => ndcExpr σ sm e

/-- Default walk of an optional expression. -/
def ndcOptExpr (σ : StrSet) (sm : SourceMap) : Option Expr → Option (List Diagnostic)
  | none => some []
  | some e => ndcExpr σ sm e

/-- Default walk of a pattern. -/
def ndcPat (σ : StrSet) (sm : SourceMap) : Pat → Option (List Diagnostic)
  | .identPat _ _ => some []
  | .memberPat _ => some []
  | .arrayPat elems _ => ndcPatElems σ sm elems
  | .objectPat props _ => ndcProps σ sm props
  | .assignPat l r _ => oapp (ndcPat σ sm l) (ndcExpr σ sm r)
  | .restPat a _ => ndcPat σ sm a
  | .exprPat e _ => ndcExpr σ sm e

/-- Default walk of array-pattern elements. -/
def ndcPatElems (σ : StrSet) (sm : SourceMap) : List (Option Pat) → Option (List Diagnostic)
  | [] => some []
  | none :: rest => ndcPatElems σ sm rest
  | some p :: rest => oapp (ndcPat σ sm p) (ndcPatElems σ sm rest)

/-- Default walk of object-pattern properties. -/
def ndcProps (σ : StrSet) (sm : SourceMap) : List ObjPatProp → Option (List Diagnostic)
  | [] => some []
  | .keyValue v _ :: rest => oapp (ndcPat σ sm v) (ndcProps σ sm rest)
  | .shorthand _ _ :: rest => ndcProps σ sm rest
  | .rest a _ :: rest => oapp (ndcPat σ sm a) (ndcProps σ sm rest)

/-- Default walk of class members (`ClassMember::Empty` wraps an
`EmptyStmt`, which this visitor's default `visit_empty_stmt` ignores). -/
def ndcMembers (σ : StrSet) (sm : SourceMap) : List ClassMember → Option (List Diagnostic)
  | [] => some []
  | .method body _ :: rest => oapp (ndcStmts σ sm body) (ndcMembers σ sm rest)
  | .emptyMember _ :: rest => ndcMembers σ sm rest

end

/-- `NoDuplicateCase::lint_program`: run the visitor over the program. -/
def lintProgram (σ : StrSet) (sm : SourceMap) (p : Program) : Option (List Diagnostic) :=
  ndcStmts σ sm p

end NoDuplicateCase

namespace NoExAssign

/-- `CODE` in `no_ex_assign.rs`. -/
def code : String := "no-ex-assign"

/-- `MESSAGE` in `no_ex_assign.rs`. -/
def message : String := "Reassigning exception parameter is not allowed"

/-- `HINT` in `no_ex_assign.rs`. -/
def hint : String := "Use a different variable for the assignment"

/-- The loop body of `NoExAssignVisitor::visit_assign_expr`: for each LHS
identifier, look it up in the scope map; whenever the binding exists and its
kind is `CatchClause`, append one diagnostic at the assignment expression's
span.  There is no early exit, so one diagnostic is appended per matching
identifier. -/
def checkIds (scope : ScopeMap) (assignSpan : Span) : List Ident → List Diagnostic
  | [] => []
  | id :: rest =>
    match scope id with
    | some var =>
      if var.kind = .CatchClause then
        ⟨assignSpan, code, message, hint⟩ :: checkIds scope assignSpan rest
      else checkIds scope assignSpan rest
    | none => checkIds scope assignSpan rest

mutual

/-- Traversal of `NoExAssignVisitor` over a statement.  The visitor
overrides only `visit_assign_expr` (and expands `noop_visit_type!`); the
assignment override never re-dispatches into the assignment's children. -/
def neaStmt (scope : ScopeMap) : Stmt → List Diagnostic
  | .emptyStmt _ => []
  | .exprStmt e _ => neaExpr scope e
  | .blockStmt ss _ => neaStmts scope ss
  | .ifStmt t c a _ => neaExpr scope t ++ neaStmt scope c ++ neaOptStmt scope a
  | .switchStmt disc cases _ => neaExpr scope disc ++ neaCases scope cases
  | .whileStmt t b _ => neaExpr scope t ++ neaStmt scope b
  | .doWhileStmt t b _ => neaExpr scope t ++ neaStmt scope b
  | .forStmt i t u b _ =>
    neaOptExpr scope i ++ neaOptExpr scope t ++ neaOptExpr scope u ++ neaStmt scope b
  | .forInStmt l r b _ => neaPat scope l ++ neaExpr scope r ++ neaStmt scope b
  | .forOfStmt l r b _ => neaPat scope l ++ neaExpr scope r ++ neaStmt scope b
  | .withStmt o b _ => neaExpr scope o ++ neaStmt scope b
  | .labeledStmt _ b _ => neaStmt scope b
  | .classDecl _ ms _ => neaMembers scope ms
  | .tsInterfaceDeclStmt _ => []
  | .tsModuleDecl _ body _ => neaStmts scope body
  | .tsTypeAliasDecl _ _ _ => []

/-- Default walk of a statement list. -/
def neaStmts (scope : ScopeMap) : List Stmt → List Diagnostic
  | [] => []
  | s :: rest => neaStmt scope s ++ neaStmts scope rest

/-- Default walk of an optional statement. -/
def neaOptStmt (scope : ScopeMap) : Option Stmt → List Diagnostic
  | none => []
  | some s => neaStmt scope s

/-- Walk of an expression; `visit_assign_expr` is the override
(`find_lhs_ids` on the left, then the scope-lookup loop; no recursion into
the assignment's subexpressions). -/
def neaExpr (scope : ScopeMap) : Expr → List Diagnostic
  | .ident _ _ => []
  | .lit _ => []
  | .assignExpr left _ span => checkIds scope span (find_lhs_ids left)
  | .binExpr l r _ => neaExpr scope l ++ neaExpr scope r
  | .fnExpr body _ => neaStmts scope body
  | .tsAsExpr e _ _ => neaExpr scope e

/-- Default walk of an optional expression. -/
def neaOptExpr (scope : ScopeMap) : Option Expr → List Diagnostic
  | none => []
  | some e => neaExpr scope e

/-- Default walk of a pattern. -/
def neaPat (scope : ScopeMap) : Pat → List Diagnostic
  | .identPat _ _ => []
  | .memberPat _ => []
  | .arrayPat elems _ => neaPatElems scope elems
  | .objectPat props _ => neaProps scope props
  | .assignPat l r _ => neaPat scope l ++ neaExpr scope r
  | .restPat a _ => neaPat scope a
  | .exprPat e _ => neaExpr scope e

/-- Default walk of array-pattern elements. -/
def neaPatElems (scope : ScopeMap) : List (Option Pat) → List Diagnostic
  | [] => []
  | none :: rest => neaPatElems scope rest
  | some p :: rest => neaPat scope p ++ neaPatElems scope rest

/-- Default walk of object-pattern properties. -/
def neaProps (scope : ScopeMap) : List ObjPatProp → List Diagnostic
  | [] => []
  | .keyValue v _ :: rest => neaPat scope v ++ neaProps scope rest
  | .shorthand _ _ :: rest => neaProps scope rest
  | .rest a _ :: rest => neaPat scope a ++ neaProps scope rest

/-- Default walk of switch cases (test, then consequent statements). -/
def neaCases (scope : ScopeMap) : List SwitchCase → List Diagnostic
  | [] => []
  | .mk t cons _ :: rest => neaOptExpr scope t ++ neaStmts scope cons ++ neaCases scope rest

/-- Default walk of class members. -/
def neaMembers (scope : ScopeMap) : List ClassMember → List Diagnostic
  | [] => []
  | .method body _ :: rest => neaStmts scope body ++ neaMembers scope rest
  | .emptyMember _ :: rest => neaMembers scope rest

end

/-- `NoExAssign::lint_program`: run the visitor over the program. -/
def lintProgram (scope : ScopeMap) (p : Program) : List Diagnostic :=
  neaStmts scope p

end NoExAssign

namespace NoEmptyInterface

/-- `NoEmptyInterface::code()`. -/
def code : String := "no-empty-interface"

/-- Message used when the `extends` clause is empty.  (`\x7b\x7d` is the
two-character brace pair.) -/
def messageEquivalent : String := "An empty interface is equivalent to `\x7b\x7d`."

/-- Message used when the `extends` clause has exactly one entry. -/
def messageSupertype : String :=
  "An interface declaring no members is equivalent to its supertype."

/-- Hint used when the `extends` clause is empty. -/
def hintRemove : String := "Remove this interface or add members to this interface."

/-- Hint used when the `extends` clause has exactly one entry. -/
def hintSupertype : String := "Use the supertype instead, or add members to this interface."

/-- The body of `NoEmptyInterfaceVisitor::visit_ts_interface_decl`: report
at the declaration's span when `extends.len() <= 1 && body.body.is_empty()`,
choosing message and hint by whether `extends` is empty.  The override never
re-dispatches into the declaration. -/
def checkInterfaceDecl (d : TsInterfaceDecl) : List Diagnostic :=
  if d.extendsList.length ≤ 1 ∧ d.body.body.isEmpty then
    [⟨d.span, code,
      if d.extendsList.isEmpty then messageEquivalent else messageSupertype,
      if d.extendsList.isEmpty then hintRemove else hintSupertype⟩]
  else []

mutual

/-- Traversal of `NoEmptyInterfaceVisitor` over a statement.  This visitor
does *not* expand `noop_visit_type!`, so the default walker also enters
type-only subtrees (type-alias right-hand sides, `as`-casts' type
arguments); the single override is `visit_ts_interface_decl`. -/
def neiStmt : Stmt → List Diagnostic
  | .emptyStmt _ => []
  | .exprStmt e _ => neiExpr e
  | .blockStmt ss _ => neiStmts ss
  | .ifStmt t c a _ => neiExpr t ++ neiStmt c ++ neiOptStmt a
  | .switchStmt disc cases _ => neiExpr disc ++ neiCases cases
  | .whileStmt t b _ => neiExpr t ++ neiStmt b
  | .doWhileStmt t b _ => neiExpr t ++ neiStmt b
  | .forStmt i t u b _ => neiOptExpr i ++ neiOptExpr t ++ neiOptExpr u ++ neiStmt b
  | .forInStmt l r b _ => neiPat l ++ neiExpr r ++ neiStmt b
  | .forOfStmt l r b _ => neiPat l ++ neiExpr r ++ neiStmt b
  | .withStmt o b _ => neiExpr o ++ neiStmt b
  | .labeledStmt _ b _ => neiStmt b
  | .classDecl _ ms _ => neiMembers ms
  | .tsInterfaceDeclStmt d => checkInterfaceDecl d
  | .tsModuleDecl _ body _ => neiStmts body
  | .tsTypeAliasDecl _ ty _ => neiType ty

/-- Default walk of a statement list. -/
def neiStmts : List Stmt → List Diagnostic
  | [] => []
  | s :: rest => neiStmt s ++ neiStmts rest

/-- Default walk of an optional statement. -/
def neiOptStmt : Option Stmt → List Diagnostic
  | none => []
  | some s => neiStmt s

/-- Default walk of an expression (type children are walked too). -/
def neiExpr : Expr → List Diagnostic
  | .ident _ _ => []
  | .lit _ => []
  | .assignExpr l r _ => neiPat l ++ neiExpr r
  | .binExpr l r _ => neiExpr l ++ neiExpr r
  | .fnExpr body _ => neiStmts body
  | .tsAsExpr e ty _ => neiExpr e ++ neiType ty

/-- Default walk of an optional expression. -/
def neiOptExpr : Option Expr → List Diagnostic
  | none => []
  | some e => neiExpr e

/-- Default walk of a pattern. -/
def neiPat : Pat → List Diagnostic
  | .identPat _ _ => []
  | .memberPat _ => []
  | .arrayPat elems _ => neiPatElems elems
  | .objectPat props _ => neiProps props
  | .assignPat l r _ => neiPat l ++ neiExpr r
  | .restPat a _ => neiPat a
  | .exprPat e _ => neiExpr e

/-- Default walk of array-pattern elements. -/
def neiPatElems : List (Option Pat) → List Diagnostic
  | [] => []
  | none :: rest => neiPatElems rest
  | some p :: rest => neiPat p ++ neiPatElems rest

/-- Default walk of object-pattern properties. -/
def neiProps : List ObjPatProp → List Diagnostic
  | [] => []
  | .keyValue v _ :: rest => neiPat v ++ neiProps rest
  | .shorthand _ _ :: rest => neiProps rest
  | .rest a _ :: rest => neiPat a ++ neiProps rest

/-- Default walk of switch cases. -/
def neiCases : List SwitchCase → List Diagnostic
  | [] => []
  | .mk t cons _ :: rest => neiOptExpr t ++ neiStmts cons ++ neiCases rest

/-- Default walk of class members. -/
def neiMembers : List ClassMember → List Diagnostic
  | [] => []
  | .method body _ :: rest => neiStmts body ++ neiMembers rest
  | .emptyMember _ :: rest => neiMembers rest

/-- Default walk of a TypeScript type (entered because this visitor does not
expand `noop_visit_type!`). -/
def neiType : TsType → List Diagnostic
  | .keywordType _ => []
  | .typeLit members _ => neiTypeElems members

/-- Default walk of type-literal members (a computed key is an expression
child). -/
def neiTypeElems : List TsTypeElement → List Diagnostic
  | [] => []
  | .propertySig key _ :: rest => neiExpr key ++ neiTypeElems rest

end

/-- `NoEmptyInterface::lint_program`: run the visitor over the program. -/
def lintProgram (p : Program) : List Diagnostic :=
  neiStmts p

end NoEmptyInterface

namespace NoExtraSemi

/-- `NoExtraSemi::code()`. -/
def code : String := "no-extra-semi"

/-- The message passed to `add_diagnostic_with_hint` in `visit_empty_stmt`. -/
def message : String := "Unnecessary semicolon."

/-- The hint passed to `add_diagnostic_with_hint` in `visit_empty_stmt`. -/
def hint : String := "Remove the extra (and unnecessary) semi-colon"

/-- Is a statement an `EmptyStmt`?  (`matches!(stmt, Stmt::Empty(_))`.) -/
def isEmptyStmt : Stmt → Bool
  | .emptyStmt _ => true
  | _ => false

mutual

/-- Traversal of `NoExtraSemiVisitor` over a statement.  `visit_empty_stmt`
reports at the empty statement's span; each body-bearing construct
(`for`, `while`, `do-while`, `with`, `for-of`, `for-in`) re-dispatches its
non-body children and skips the body exactly when the body is an empty
statement (otherwise it resumes the default walk); `if` and `label` always
re-dispatch manually, skipping each empty branch / body.  All other nodes
use the default walk; `noop_visit_type!` is expanded. -/
def nesStmt : Stmt → List Diagnostic
  | .emptyStmt span => [⟨span, code, message, hint⟩]
  | .exprStmt e _ => nesExpr e
  | .blockStmt ss _ => nesStmts ss
  | .ifStmt t c a _ =>
    nesExpr t ++
    (if isEmptyStmt c then [] else nesStmt c) ++
    nesAlt a
  | .switchStmt disc cases _ => nesExpr disc ++ nesCases cases
  | .whileStmt t b _ =>
    if isEmptyStmt b then nesExpr t else nesExpr t ++ nesStmt b
  | .doWhileStmt t b _ =>
    if isEmptyStmt b then nesExpr t else nesExpr t ++ nesStmt b
  | .forStmt i t u b _ =>
    if isEmptyStmt b then nesOptExpr i ++ nesOptExpr t ++ nesOptExpr u
    else nesOptExpr i ++ nesOptExpr t ++ nesOptExpr u ++ nesStmt b
  | .forInStmt l r b _ =>
    if isEmptyStmt b then nesPat l ++ nesExpr r
    else nesPat l ++ nesExpr r ++ nesStmt b
  | .forOfStmt l r b _ =>
    if isEmptyStmt b then nesPat l ++ nesExpr r
    else nesPat l ++ nesExpr r ++ nesStmt b
  | .withStmt o b _ =>
    if isEmptyStmt b then nesExpr o else nesExpr o ++ nesStmt b
  | .labeledStmt _ b _ => if isEmptyStmt b then [] else nesStmt b
  | .classDecl _ ms _ => nesMembers ms
  | .tsInterfaceDeclStmt _ => []
  | .tsModuleDecl _ body _ => nesStmts body
  | .tsTypeAliasDecl _ _ _ => []

/-- The `alt` dispatch of `visit_if_stmt`: an absent or empty `else`
branch is skipped, any other branch is re-dispatched. -/
def nesAlt : Option Stmt → List Diagnostic
  | none => []
  | some alt => if isEmptyStmt alt then [] else nesStmt alt

/-- Default walk of a statement list. -/
def nesStmts : List Stmt → List Diagnostic
  | [] => []
  | s :: rest => nesStmt s ++ nesStmts rest

/-- Default walk of an optional expression. -/
def nesOptExpr : Option Expr → List Diagnostic
  | none => []
  | some e => nesExpr e

/-- Default walk of an expression. -/
def nesExpr : Expr → List Diagnostic
  | .ident _ _ => []
  | .lit _ => []
  | .assignExpr l r _ => nesPat l ++ nesExpr r
  | .binExpr l r _ => nesExpr l ++ nesExpr r
  | .fnExpr body _ => nesStmts body
  | .tsAsExpr e _ _ => nesExpr e

/-- Default walk of a pattern. -/
def nesPat : Pat → List Diagnostic
  | .identPat _ _ => []
  | .memberPat _ => []
  | .arrayPat elems _ => nesPatElems elems
  | .objectPat props _ => nesProps props
  | .assignPat l r _ => nesPat l ++ nesExpr r
  | .restPat a _ => nesPat a
  | .exprPat e _ => nesExpr e

/-- Default walk of array-pattern elements. -/
def nesPatElems : List (Option Pat) → List Diagnostic
  | [] => []
  | none :: rest => nesPatElems rest
  | some p :: rest => nesPat p ++ nesPatElems rest

/-- Default walk of object-pattern properties. -/
def nesProps : List ObjPatProp → List Diagnostic
  | [] => []
  | .keyValue v _ :: rest => nesPat v ++ nesProps rest
  | .shorthand _ _ :: rest => nesProps rest
  | .rest a _ :: rest => nesPat a ++ nesProps rest

/-- Default walk of switch cases. -/
def nesCases : List SwitchCase → List Diagnostic
  | [] => []
  | .mk t cons _ :: rest => nesOptExpr t ++ nesStmts cons ++ nesCases rest

/-- Default walk of class members: a method's body is walked; a
`ClassMember::Empty` wraps an `EmptyStmt`, which the default walker
dispatches to `visit_empty_stmt`, producing a diagnostic. -/
def nesMembers : List ClassMember → List Diagnostic
  | [] => []
  | .method body _ :: rest => nesStmts body ++ nesMembers rest
  | .emptyMember span :: rest => ⟨span, code, message, hint⟩ :: nesMembers rest

end

/-- `NoExtraSemi::lint_program`: run the visitor over the program. -/
def lintProgram (p : Program) : List Diagnostic :=
  nesStmts p

end NoExtraSemi

/-- One full lint pass: the four rules run in a fixed registration order
over the same program, each with the shared context capabilities;
diagnostics are grouped by rule.  A panic in `NoDuplicateCase`
(unresolvable case-test span) aborts the run. -/
def lintAll (σ : StrSet) (sm : SourceMap) (scope : ScopeMap) (p : Program) :
    Option (List Diagnostic) :=
  match NoDuplicateCase.lintProgram σ sm p with
  | none => none
  | some ds =>
    some (ds ++ NoEmptyInterface.lintProgram p ++
      NoExAssign.lintProgram scope p ++ NoExtraSemi.lintProgram p)

/-! ## Predicates and fixtures used by the theorems -/

/-- Pointwise predicate over an optional diagnostic list: every diagnostic
of a successful (non-panicking) run satisfies `P`. -/
def AllDiagO (P : Diagnostic → Prop) (o : Option (List Diagnostic)) : Prop :=
  ∀ ds, o = some ds → ∀ d ∈ ds, P d

namespace NoDuplicateCase

/-- The fixed field values of every `NoDuplicateCase` diagnostic. -/
def DiagOk (d : Diagnostic) : Prop :=
  d.code = code ∧ d.message = message ∧ d.hint = hint

end NoDuplicateCase

namespace NoExAssign

/-- The fixed field values of every `NoExAssign` diagnostic; the span is
always the enclosing assignment expression's span, recorded by `checkIds`. -/
def DiagOk (d : Diagnostic) : Prop :=
  d.code = code ∧ d.message = message ∧ d.hint = hint

/-- Is this identifier bound as a catch-clause parameter under the given
scope map?  (The test the `visit_assign_expr` loop performs per id.) -/
def isCatchBound (scope : ScopeMap) (id : Ident) : Bool :=
  match scope id with
  | some v => if v.kind = .CatchClause then true else false
  | none => false

end NoExAssign

namespace NoEmptyInterface

/-- Every `NoEmptyInterface` diagnostic carries the rule's code. -/
def DiagOk (d : Diagnostic) : Prop := d.code = code

end NoEmptyInterface

namespace NoExtraSemi

/-- The fixed field values of every `NoExtraSemi` diagnostic. -/
def DiagOk (d : Diagnostic) : Prop :=
  d.code = code ∧ d.message = message ∧ d.hint = hint

end NoExtraSemi

/-! ## Concrete fixtures

Concrete programs, source maps and scope maps used to instantiate the
theorems.  Spans are character offsets into the sketched source text.
-/

/-- A source map resolving every span to the same snippet, so any two case
tests compare as textually equal. -/
def smSame : SourceMap := fun _ => some "\"a\""

/-- A source map on which every snippet lookup fails
(`span_to_snippet` returns an error for every span). -/
def smFail : SourceMap := fun _ => none

/-- A scope map with no bindings at all. -/
def emptyScope : ScopeMap := fun _ => none

/-- A scope map binding the names `a` and `b` as catch-clause parameters
(as produced for `catch (\x7ba, b\x7d)`), everything else unresolved. -/
def catchScopeAB : ScopeMap := fun id =>
  if id.name = "a" ∨ id.name = "b" then some ⟨.CatchClause, ⟨10, 20⟩⟩ else none

/-- A scope map binding the name `e` as a catch-clause parameter. -/
def catchScopeE : ScopeMap := fun id =>
  if id.name = "e" then some ⟨.CatchClause, ⟨14, 15⟩⟩ else none

/-- `switch(s)\x7b case "a": ; case "a": ; \x7d` — two cases whose tests
resolve to the same snippet under `smSame`. -/
def dupProg : Program :=
  [.switchStmt (.ident ⟨"s", 0⟩ ⟨7, 8⟩)
    [.mk (some (.lit ⟨16, 19⟩)) [] ⟨11, 22⟩,
     .mk (some (.lit ⟨28, 31⟩)) [] ⟨23, 34⟩] ⟨0, 36⟩]

/-- The case list of a switch nested in another switch's case body, with
two duplicate tests (both resolve to the same snippet under `smSame`). -/
def innerSwitchCases : List SwitchCase :=
  [.mk (some (.lit ⟨40, 43⟩)) [] ⟨35, 50⟩,
   .mk (some (.lit ⟨57, 60⟩)) [] ⟨52, 67⟩]

/-- `switch(x)\x7b case "a": switch(y)\x7b case "b": ; case "b": ; \x7d \x7d`
— a switch with duplicate tests nested inside the case body of an outer
switch. -/
def nestedSwitchProg : Program :=
  [.switchStmt (.ident ⟨"x", 0⟩ ⟨8, 9⟩)
    [.mk (some (.lit ⟨13, 16⟩))
      [.switchStmt (.ident ⟨"y", 0⟩ ⟨31, 32⟩) innerSwitchCases ⟨23, 69⟩] ⟨13, 69⟩]
    ⟨0, 71⟩]

/-- `[a, b] = c` with both `a` and `b` catch-bound under `catchScopeAB`. -/
def destructAssign : Expr :=
  .assignExpr
    (.arrayPat [some (.identPat ⟨"a", 1⟩ ⟨21, 22⟩), some (.identPat ⟨"b", 1⟩ ⟨24, 25⟩)] ⟨20, 26⟩)
    (.lit ⟨29, 31⟩) ⟨20, 31⟩

/-- Program consisting of the destructuring assignment statement. -/
def destructAssignProg : Program := [.exprStmt destructAssign ⟨20, 32⟩]

/-- `switch(s)\x7b case "a": ; \x7d` — a single-case switch used with
`smFail` to make the snippet lookup fail. -/
def oneCaseProg : Program :=
  [.switchStmt (.ident ⟨"s", 0⟩ ⟨7, 8⟩)
    [.mk (some (.lit ⟨16, 19⟩)) [] ⟨11, 22⟩] ⟨0, 24⟩]

/-- `interface Foo \x7b\x7d` — empty interface, no extends clause. -/
def ifaceFoo : TsInterfaceDecl :=
  ⟨⟨"Foo", 0⟩, false, [], ⟨[], ⟨14, 16⟩⟩, ⟨0, 16⟩⟩

/-- `interface Bar extends Baz \x7b\x7d` — empty interface with one
supertype (as in `declare module FooBar`). -/
def ifaceBar : TsInterfaceDecl :=
  ⟨⟨"Bar", 0⟩, false, [.mk ⟨54, 57⟩], ⟨[], ⟨58, 60⟩⟩, ⟨33, 60⟩⟩

/-- `interface Two extends A, B \x7b\x7d` — empty interface with two
supertypes. -/
def ifaceTwo : TsInterfaceDecl :=
  ⟨⟨"Two", 0⟩, false, [.mk ⟨22, 23⟩, .mk ⟨25, 26⟩], ⟨[], ⟨27, 29⟩⟩, ⟨0, 29⟩⟩

/-- `declare module FooBar \x7b export interface Bar extends Baz \x7b\x7d \x7d`. -/
def moduleProg : Program :=
  [.tsModuleDecl ⟨"FooBar", 0⟩ [.tsInterfaceDeclStmt ifaceBar] ⟨0, 62⟩]

/-- `class A \x7b a() \x7b\x7d; b() \x7b\x7d \x7d` — a stray semicolon
between two class members, at offset 16. -/
def classProg : Program :=
  [.classDecl ⟨"A", 0⟩
    [.method [] ⟨10, 16⟩, .emptyMember ⟨16, 17⟩, .method [] ⟨18, 24⟩] ⟨0, 26⟩]

/-- `for(;;);` — the empty statement at offset 7 is the loop body. -/
def forOkProg : Program :=
  [.forStmt none none none (.emptyStmt ⟨7, 8⟩) ⟨0, 8⟩]

/-- `for(;;);;` — the loop with empty body followed by a stray empty
statement at offset 8. -/
def forBadProg : Program :=
  [.forStmt none none none (.emptyStmt ⟨7, 8⟩) ⟨0, 8⟩, .emptyStmt ⟨8, 9⟩]

/-- A function expression whose body contains one node of interest for
each rule: an assignment to the catch-bound `e`, a stray empty statement,
a switch with duplicate tests (under `smSame`), and an empty interface. -/
def hostedFn : Expr :=
  .fnExpr
    [.exprStmt (.assignExpr (.identPat ⟨"e", 3⟩ ⟨70, 71⟩) (.lit ⟨74, 75⟩) ⟨70, 75⟩) ⟨70, 76⟩,
     .emptyStmt ⟨77, 78⟩,
     .switchStmt (.ident ⟨"y", 0⟩ ⟨87, 88⟩)
       [.mk (some (.lit ⟨90, 93⟩)) [] ⟨85, 95⟩,
        .mk (some (.lit ⟨100, 103⟩)) [] ⟨97, 105⟩] ⟨80, 107⟩,
     .tsInterfaceDeclStmt ⟨⟨"Hosted", 0⟩, false, [], ⟨[], ⟨120, 122⟩⟩, ⟨110, 122⟩⟩]
    ⟨65, 124⟩

/-- `type T = \x7b [<hostedFn>]: number \x7d` — the function expression of
`hostedFn` sits inside a type-only subtree (the computed key of a
type-literal property signature). -/
def typeHostedProg : Program :=
  [.tsTypeAliasDecl ⟨"T", 0⟩
    (.typeLit [.propertySig hostedFn ⟨64, 125⟩] ⟨63, 127⟩) ⟨0, 128⟩]

/-- The same function expression as a plain top-level expression
statement. -/
def exprHostedProg : Program := [.exprStmt hostedFn ⟨65, 125⟩]


/-! ## Invariants of the emitted diagnostics

For each rule, every diagnostic it can ever emit carries that rule's fixed
`code` (and, where the rule has a single message, the fixed message and
hint).  Proved by mutual induction following each visitor's traversal.
-/

/-- Append elimination for pointwise list predicates. -/
theorem mem_append_elim {α} {P : α → Prop} {xs ys : List α}
    (hx : ∀ d ∈ xs, P d) (hy : ∀ d ∈ ys, P d) : ∀ d ∈ xs ++ ys, P d :=
  fun d hd => (List.mem_append.mp hd).elim (hx d) (hy d)

/-- Nothing is a member of the empty list. -/
theorem mem_nil_elim {α} {P : α → Prop} : ∀ d ∈ ([] : List α), P d := by
  intro d hd; simp at hd

namespace NoExtraSemi

mutual

/-- Every diagnostic `nesStmt` emits has the rule's code, message and hint. -/
theorem nesStmt_ok : (s : Stmt) → ∀ d ∈ nesStmt s, DiagOk d
  | .emptyStmt sp => by
    rw [nesStmt]; intro d hd
    rw [List.mem_singleton] at hd; subst hd; exact ⟨rfl, rfl, rfl⟩
  | .exprStmt e _ => by rw [nesStmt]; exact nesExpr_ok e
  | .blockStmt ss _ => by rw [nesStmt]; exact nesStmts_ok ss
  | .ifStmt t c a sp => by
    rw [nesStmt]
    refine mem_append_elim (mem_append_elim (nesExpr_ok t) ?_) (nesAlt_ok a)
    split
    · exact mem_nil_elim
    · exact nesStmt_ok c
  | .switchStmt disc cases sp => by
    rw [nesStmt]; exact mem_append_elim (nesExpr_ok disc) (nesCases_ok cases)
  | .whileStmt t b sp => by
    rw [nesStmt]; split
    · exact nesExpr_ok t
    · exact mem_append_elim (nesExpr_ok t) (nesStmt_ok b)
  | .doWhileStmt t b sp => by
    rw [nesStmt]; split
    · exact nesExpr_ok t
    · exact mem_append_elim (nesExpr_ok t) (nesStmt_ok b)
  | .forStmt i t u b sp => by
    rw [nesStmt]; split
    · exact mem_append_elim (mem_append_elim (nesOptExpr_ok i) (nesOptExpr_ok t)) (nesOptExpr_ok u)
    · exact mem_append_elim (mem_append_elim (mem_append_elim (nesOptExpr_ok i) (nesOptExpr_ok t)) (nesOptExpr_ok u)) (nesStmt_ok b)
  | .forInStmt l r b sp => by
    rw [nesStmt]; split
    · exact mem_append_elim (nesPat_ok l) (nesExpr_ok r)
    · exact mem_append_elim (mem_append_elim (nesPat_ok l) (nesExpr_ok r)) (nesStmt_ok b)
  | .forOfStmt l r b sp => by
    rw [nesStmt]; split
    · exact mem_append_elim (nesPat_ok l) (nesExpr_ok r)
    · exact mem_append_elim (mem_append_elim (nesPat_ok l) (nesExpr_ok r)) (nesStmt_ok b)
  | .withStmt o b sp => by
    rw [nesStmt]; split
    · exact nesExpr_ok o
    · exact mem_append_elim (nesExpr_ok o) (nesStmt_ok b)
  | .labeledStmt _ b sp => by
    rw [nesStmt]; split
    · exact mem_nil_elim
    · exact nesStmt_ok b
  | .classDecl _ ms sp => by rw [nesStmt]; exact nesMembers_ok ms
  | .tsInterfaceDeclStmt _ => by rw [nesStmt]; exact mem_nil_elim
  | .tsModuleDecl _ body _ => by rw [nesStmt]; exact nesStmts_ok body
  | .tsTypeAliasDecl _ _ _ => by rw [nesStmt]; exact mem_nil_elim

/-- `nesAlt` diagnostics invariant. -/
theorem nesAlt_ok : (a : Option Stmt) → ∀ d ∈ nesAlt a, DiagOk d
  | none => by rw [nesAlt]; exact mem_nil_elim
  | some alt => by
    rw [nesAlt]; split
    · exact mem_nil_elim
    · exact nesStmt_ok alt

/-- `nesStmts` diagnostics invariant. -/
theorem nesStmts_ok : (ss : List Stmt) → ∀ d ∈ nesStmts ss, DiagOk d
  | [] => by rw [nesStmts]; exact mem_nil_elim
  | s :: rest => by
    rw [nesStmts]; exact mem_append_elim (nesStmt_ok s) (nesStmts_ok rest)

/-- `nesOptExpr` diagnostics invariant. -/
theorem nesOptExpr_ok : (e : Option Expr) → ∀ d ∈ nesOptExpr e, DiagOk d
  | none => by rw [nesOptExpr]; exact mem_nil_elim
  | some e => by rw [nesOptExpr]; exact nesExpr_ok e

/-- `nesExpr` diagnostics invariant. -/
theorem nesExpr_ok : (e : Expr) → ∀ d ∈ nesExpr e, DiagOk d
  | .ident _ _ => by rw [nesExpr]; exact mem_nil_elim
  | .lit _ => by rw [nesExpr]; exact mem_nil_elim
  | .assignExpr l r _ => by
    rw [nesExpr]; exact mem_append_elim (nesPat_ok l) (nesExpr_ok r)
  | .binExpr l r _ => by
    rw [nesExpr]; exact mem_append_elim (nesExpr_ok l) (nesExpr_ok r)
  | .fnExpr body _ => by rw [nesExpr]; exact nesStmts_ok body
  | .tsAsExpr e _ _ => by rw [nesExpr]; exact nesExpr_ok e

/-- `nesPat` diagnostics invariant. -/
theorem nesPat_ok : (p : Pat) → ∀ d ∈ nesPat p, DiagOk d
  | .identPat _ _ => by rw [nesPat]; exact mem_nil_elim
  | .memberPat _ => by rw [nesPat]; exact mem_nil_elim
  | .arrayPat elems _ => by rw [nesPat]; exact nesPatElems_ok elems
  | .objectPat props _ => by rw [nesPat]; exact nesProps_ok props
  | .assignPat l r _ => by
    rw [nesPat]; exact mem_append_elim (nesPat_ok l) (nesExpr_ok r)
  | .restPat a _ => by rw [nesPat]; exact nesPat_ok a
  | .exprPat e _ => by rw [nesPat]; exact nesExpr_ok e

/-- `nesPatElems` diagnostics invariant. -/
theorem nesPatElems_ok : (elems : List (Option Pat)) → ∀ d ∈ nesPatElems elems, DiagOk d
  | [] => by rw [nesPatElems]; exact mem_nil_elim
  | none :: rest => by rw [nesPatElems]; exact nesPatElems_ok rest
  | some p :: rest => by
    rw [nesPatElems]; exact mem_append_elim (nesPat_ok p) (nesPatElems_ok rest)

/-- `nesProps` diagnostics invariant. -/
theorem nesProps_ok : (props : List ObjPatProp) → ∀ d ∈ nesProps props, DiagOk d
  | [] => by rw [nesProps]; exact mem_nil_elim
  | .keyValue v _ :: rest => by
    rw [nesProps]; exact mem_append_elim (nesPat_ok v) (nesProps_ok rest)
  | .shorthand _ _ :: rest => by rw [nesProps]; exact nesProps_ok rest
  | .rest a _ :: rest => by
    rw [nesProps]; exact mem_append_elim (nesPat_ok a) (nesProps_ok rest)

/-- `nesCases` diagnostics invariant. -/
theorem nesCases_ok : (cs : List SwitchCase) → ∀ d ∈ nesCases cs, DiagOk d
  | [] => by rw [nesCases]; exact mem_nil_elim
  | .mk t cons _ :: rest => by
    rw [nesCases]
    exact mem_append_elim (mem_append_elim (nesOptExpr_ok t) (nesStmts_ok cons)) (nesCases_ok rest)

/-- `nesMembers` diagnostics invariant. -/
theorem nesMembers_ok : (ms : List ClassMember) → ∀ d ∈ nesMembers ms, DiagOk d
  | [] => by rw [nesMembers]; exact mem_nil_elim
  | .method body _ :: rest => by
    rw [nesMembers]; exact mem_append_elim (nesStmts_ok body) (nesMembers_ok rest)
  | .emptyMember sp :: rest => by
    rw [nesMembers]; intro d hd
    rcases List.mem_cons.mp hd with h | h
    · subst h; exact ⟨rfl, rfl, rfl⟩
    · exact nesMembers_ok rest d h

end

end NoExtraSemi

namespace NoExAssign

/-- Every diagnostic of the `visit_assign_expr` loop has the rule's fields
and is located at the assignment's span. -/
theorem checkIds_ok (scope : ScopeMap) (sp : Span) :
    (ids : List Ident) → ∀ d ∈ checkIds scope sp ids, DiagOk d ∧ d.span = sp
  | [] => by rw [checkIds]; exact mem_nil_elim
  | id :: rest => by
    rw [checkIds]
    split
    · split
      · intro d hd
        rcases List.mem_cons.mp hd with h | h
        · subst h; exact ⟨⟨rfl, rfl, rfl⟩, rfl⟩
        · exact checkIds_ok scope sp rest d h
      · exact checkIds_ok scope sp rest
    · exact checkIds_ok scope sp rest

mutual

/-- Every diagnostic `neaStmt` emits has the rule's code, message and hint. -/
theorem neaStmt_ok (scope : ScopeMap) : (s : Stmt) → ∀ d ∈ neaStmt scope s, DiagOk d
  | .emptyStmt _ => by rw [neaStmt]; exact mem_nil_elim
  | .exprStmt e _ => by rw [neaStmt]; exact neaExpr_ok scope e
  | .blockStmt ss _ => by rw [neaStmt]; exact neaStmts_ok scope ss
  | .ifStmt t c a _ => by
    rw [neaStmt]
    exact mem_append_elim (mem_append_elim (neaExpr_ok scope t) (neaStmt_ok scope c)) (neaOptStmt_ok scope a)
  | .switchStmt disc cases _ => by
    rw [neaStmt]; exact mem_append_elim (neaExpr_ok scope disc) (neaCases_ok scope cases)
  | .whileStmt t b _ => by
    rw [neaStmt]; exact mem_append_elim (neaExpr_ok scope t) (neaStmt_ok scope b)
  | .doWhileStmt t b _ => by
    rw [neaStmt]; exact mem_append_elim (neaExpr_ok scope t) (neaStmt_ok scope b)
  | .forStmt i t u b _ => by
    rw [neaStmt]
    exact mem_append_elim (mem_append_elim (mem_append_elim (neaOptExpr_ok scope i) (neaOptExpr_ok scope t)) (neaOptExpr_ok scope u)) (neaStmt_ok scope b)
  | .forInStmt l r b _ => by
    rw [neaStmt]
    exact mem_append_elim (mem_append_elim (neaPat_ok scope l) (neaExpr_ok scope r)) (neaStmt_ok scope b)
  | .forOfStmt l r b _ => by
    rw [neaStmt]
    exact mem_append_elim (mem_append_elim (neaPat_ok scope l) (neaExpr_ok scope r)) (neaStmt_ok scope b)
  | .withStmt o b _ => by
    rw [neaStmt]; exact mem_append_elim (neaExpr_ok scope o) (neaStmt_ok scope b)
  | .labeledStmt _ b _ => by rw [neaStmt]; exact neaStmt_ok scope b
  | .classDecl _ ms _ => by rw [neaStmt]; exact neaMembers_ok scope ms
  | .tsInterfaceDeclStmt _ => by rw [neaStmt]; exact mem_nil_elim
  | .tsModuleDecl _ body _ => by rw [neaStmt]; exact neaStmts_ok scope body
  | .tsTypeAliasDecl _ _ _ => by rw [neaStmt]; exact mem_nil_elim

/-- `neaStmts` diagnostics invariant. -/
theorem neaStmts_ok (scope : ScopeMap) : (ss : List Stmt) → ∀ d ∈ neaStmts scope ss, DiagOk d
  | [] => by rw [neaStmts]; exact mem_nil_elim
  | s :: rest => by
    rw [neaStmts]; exact mem_append_elim (neaStmt_ok scope s) (neaStmts_ok scope rest)

/-- `neaOptStmt` diagnostics invariant. -/
theorem neaOptStmt_ok (scope : ScopeMap) : (a : Option Stmt) → ∀ d ∈ neaOptStmt scope a, DiagOk d
  | none => by rw [neaOptStmt]; exact mem_nil_elim
  | some s => by rw [neaOptStmt]; exact neaStmt_ok scope s

/-- `neaExpr` diagnostics invariant. -/
theorem neaExpr_ok (scope : ScopeMap) : (e : Expr) → ∀ d ∈ neaExpr scope e, DiagOk d
  | .ident _ _ => by rw [neaExpr]; exact mem_nil_elim
  | .lit _ => by rw [neaExpr]; exact mem_nil_elim
  | .assignExpr left _ span => by
    rw [neaExpr]
    exact fun d hd => (checkIds_ok scope span (find_lhs_ids left) d hd).1
  | .binExpr l r _ => by
    rw [neaExpr]; exact mem_append_elim (neaExpr_ok scope l) (neaExpr_ok scope r)
  | .fnExpr body _ => by rw [neaExpr]; exact neaStmts_ok scope body
  | .tsAsExpr e _ _ => by rw [neaExpr]; exact neaExpr_ok scope e

/-- `neaOptExpr` diagnostics invariant. -/
theorem neaOptExpr_ok (scope : ScopeMap) : (e : Option Expr) → ∀ d ∈ neaOptExpr scope e, DiagOk d
  | none => by rw [neaOptExpr]; exact mem_nil_elim
  | some e => by rw [neaOptExpr]; exact neaExpr_ok scope e

/-- `neaPat` diagnostics invariant. -/
theorem neaPat_ok (scope : ScopeMap) : (p : Pat) → ∀ d ∈ neaPat scope p, DiagOk d
  | .identPat _ _ => by rw [neaPat]; exact mem_nil_elim
  | .memberPat _ => by rw [neaPat]; exact mem_nil_elim
  | .arrayPat elems _ => by rw [neaPat]; exact neaPatElems_ok scope elems
  | .objectPat props _ => by rw [neaPat]; exact neaProps_ok scope props
  | .assignPat l r _ => by
    rw [neaPat]; exact mem_append_elim (neaPat_ok scope l) (neaExpr_ok scope r)
  | .restPat a _ => by rw [neaPat]; exact neaPat_ok scope a
  | .exprPat e _ => by rw [neaPat]; exact neaExpr_ok scope e

/-- `neaPatElems` diagnostics invariant. -/
theorem neaPatElems_ok (scope : ScopeMap) :
    (elems : List (Option Pat)) → ∀ d ∈ neaPatElems scope elems, DiagOk d
  | [] => by rw [neaPatElems]; exact mem_nil_elim
  | none :: rest => by rw [neaPatElems]; exact neaPatElems_ok scope rest
  | some p :: rest => by
    rw [neaPatElems]; exact mem_append_elim (neaPat_ok scope p) (neaPatElems_ok scope rest)

/-- `neaProps` diagnostics invariant. -/
theorem neaProps_ok (scope : ScopeMap) :
    (props : List ObjPatProp) → ∀ d ∈ neaProps scope props, DiagOk d
  | [] => by rw [neaProps]; exact mem_nil_elim
  | .keyValue v _ :: rest => by
    rw [neaProps]; exact mem_append_elim (neaPat_ok scope v) (neaProps_ok scope rest)
  | .shorthand _ _ :: rest => by rw [neaProps]; exact neaProps_ok scope rest
  | .rest a _ :: rest => by
    rw [neaProps]; exact mem_append_elim (neaPat_ok scope a) (neaProps_ok scope rest)

/-- `neaCases` diagnostics invariant. -/
theorem neaCases_ok (scope : ScopeMap) :
    (cs : List SwitchCase) → ∀ d ∈ neaCases scope cs, DiagOk d
  | [] => by rw [neaCases]; exact mem_nil_elim
  | .mk t cons _ :: rest => by
    rw [neaCases]
    exact mem_append_elim (mem_append_elim (neaOptExpr_ok scope t) (neaStmts_ok scope cons)) (neaCases_ok scope rest)

/-- `neaMembers` diagnostics invariant. -/
theorem neaMembers_ok (scope : ScopeMap) :
    (ms : List ClassMember) → ∀ d ∈ neaMembers scope ms, DiagOk d
  | [] => by rw [neaMembers]; exact mem_nil_elim
  | .method body _ :: rest => by
    rw [neaMembers]; exact mem_append_elim (neaStmts_ok scope body) (neaMembers_ok scope rest)
  | .emptyMember _ :: rest => by rw [neaMembers]; exact neaMembers_ok scope rest

end

end NoExAssign

namespace NoEmptyInterface

/-- Diagnostics of the interface check carry the rule's code. -/
theorem checkInterfaceDecl_ok (decl : TsInterfaceDecl) :
    ∀ d ∈ checkInterfaceDecl decl, DiagOk d := by
  rw [checkInterfaceDecl]
  split
  · intro d hd
    rw [List.mem_singleton] at hd; subst hd; rfl
  · exact mem_nil_elim

mutual

/-- Every diagnostic `neiStmt` emits has the rule's code. -/
theorem neiStmt_ok : (s : Stmt) → ∀ d ∈ neiStmt s, DiagOk d
  | .emptyStmt _ => by rw [neiStmt]; exact mem_nil_elim
  | .exprStmt e _ => by rw [neiStmt]; exact neiExpr_ok e
  | .blockStmt ss _ => by rw [neiStmt]; exact neiStmts_ok ss
  | .ifStmt t c a _ => by
    rw [neiStmt]
    exact mem_append_elim (mem_append_elim (neiExpr_ok t) (neiStmt_ok c)) (neiOptStmt_ok a)
  | .switchStmt disc cases _ => by
    rw [neiStmt]; exact mem_append_elim (neiExpr_ok disc) (neiCases_ok cases)
  | .whileStmt t b _ => by
    rw [neiStmt]; exact mem_append_elim (neiExpr_ok t) (neiStmt_ok b)
  | .doWhileStmt t b _ => by
    rw [neiStmt]; exact mem_append_elim (neiExpr_ok t) (neiStmt_ok b)
  | .forStmt i t u b _ => by
    rw [neiStmt]
    exact mem_append_elim (mem_append_elim (mem_append_elim (neiOptExpr_ok i) (neiOptExpr_ok t)) (neiOptExpr_ok u)) (neiStmt_ok b)
  | .forInStmt l r b _ => by
    rw [neiStmt]
    exact mem_append_elim (mem_append_elim (neiPat_ok l) (neiExpr_ok r)) (neiStmt_ok b)
  | .forOfStmt l r b _ => by
    rw [neiStmt]
    exact mem_append_elim (mem_append_elim (neiPat_ok l) (neiExpr_ok r)) (neiStmt_ok b)
  | .withStmt o b _ => by
    rw [neiStmt]; exact mem_append_elim (neiExpr_ok o) (neiStmt_ok b)
  | .labeledStmt _ b _ => by rw [neiStmt]; exact neiStmt_ok b
  | .classDecl _ ms _ => by rw [neiStmt]; exact neiMembers_ok ms
  | .tsInterfaceDeclStmt d => by rw [neiStmt]; exact checkInterfaceDecl_ok d
  | .tsModuleDecl _ body _ => by rw [neiStmt]; exact neiStmts_ok body
  | .tsTypeAliasDecl _ ty _ => by rw [neiStmt]; exact neiType_ok ty

/-- `neiStmts` diagnostics invariant. -/
theorem neiStmts_ok : (ss : List Stmt) → ∀ d ∈ neiStmts ss, DiagOk d
  | [] => by rw [neiStmts]; exact mem_nil_elim
  | s :: rest => by
    rw [neiStmts]; exact mem_append_elim (neiStmt_ok s) (neiStmts_ok rest)

/-- `neiOptStmt` diagnostics invariant. -/
theorem neiOptStmt_ok : (a : Option Stmt) → ∀ d ∈ neiOptStmt a, DiagOk d
  | none => by rw [neiOptStmt]; exact mem_nil_elim
  | some s => by rw [neiOptStmt]; exact neiStmt_ok s

/-- `neiExpr` diagnostics invariant. -/
theorem neiExpr_ok : (e : Expr) → ∀ d ∈ neiExpr e, DiagOk d
  | .ident _ _ => by rw [neiExpr]; exact mem_nil_elim
  | .lit _ => by rw [neiExpr]; exact mem_nil_elim
  | .assignExpr l r _ => by
    rw [neiExpr]; exact mem_append_elim (neiPat_ok l) (neiExpr_ok r)
  | .binExpr l r _ => by
    rw [neiExpr]; exact mem_append_elim (neiExpr_ok l) (neiExpr_ok r)
  | .fnExpr body _ => by rw [neiExpr]; exact neiStmts_ok body
  | .tsAsExpr e ty _ => by
    rw [neiExpr]; exact mem_append_elim (neiExpr_ok e) (neiType_ok ty)

/-- `neiOptExpr` diagnostics invariant. -/
theorem neiOptExpr_ok : (e : Option Expr) → ∀ d ∈ neiOptExpr e, DiagOk d
  | none => by rw [neiOptExpr]; exact mem_nil_elim
  | some e => by rw [neiOptExpr]; exact neiExpr_ok e

/-- `neiPat` diagnostics invariant. -/
theorem neiPat_ok : (p : Pat) → ∀ d ∈ neiPat p, DiagOk d
  | .identPat _ _ => by rw [neiPat]; exact mem_nil_elim
  | .memberPat _ => by rw [neiPat]; exact mem_nil_elim
  | .arrayPat elems _ => by rw [neiPat]; exact neiPatElems_ok elems
  | .objectPat props _ => by rw [neiPat]; exact neiProps_ok props
  | .assignPat l r _ => by
    rw [neiPat]; exact mem_append_elim (neiPat_ok l) (neiExpr_ok r)
  | .restPat a _ => by rw [neiPat]; exact neiPat_ok a
  | .exprPat e _ => by rw [neiPat]; exact neiExpr_ok e

/-- `neiPatElems` diagnostics invariant. -/
theorem neiPatElems_ok : (elems : List (Option Pat)) → ∀ d ∈ neiPatElems elems, DiagOk d
  | [] => by rw [neiPatElems]; exact mem_nil_elim
  | none :: rest => by rw [neiPatElems]; exact neiPatElems_ok rest
  | some p :: rest => by
    rw [neiPatElems]; exact mem_append_elim (neiPat_ok p) (neiPatElems_ok rest)

/-- `neiProps` diagnostics invariant. -/
theorem neiProps_ok : (props : List ObjPatProp) → ∀ d ∈ neiProps props, DiagOk d
  | [] => by rw [neiProps]; exact mem_nil_elim
  | .keyValue v _ :: rest => by
    rw [neiProps]; exact mem_append_elim (neiPat_ok v) (neiProps_ok rest)
  | .shorthand _ _ :: rest => by rw [neiProps]; exact neiProps_ok rest
  | .rest a _ :: rest => by
    rw [neiProps]; exact mem_append_elim (neiPat_ok a) (neiProps_ok rest)

/-- `neiCases` diagnostics invariant. -/
theorem neiCases_ok : (cs : List SwitchCase) → ∀ d ∈ neiCases cs, DiagOk d
  | [] => by rw [neiCases]; exact mem_nil_elim
  | .mk t cons _ :: rest => by
    rw [neiCases]
    exact mem_append_elim (mem_append_elim (neiOptExpr_ok t) (neiStmts_ok cons)) (neiCases_ok rest)

/-- `neiMembers` diagnostics invariant. -/
theorem neiMembers_ok : (ms : List ClassMember) → ∀ d ∈ neiMembers ms, DiagOk d
  | [] => by rw [neiMembers]; exact mem_nil_elim
  | .method body _ :: rest => by
    rw [neiMembers]; exact mem_append_elim (neiStmts_ok body) (neiMembers_ok rest)
  | .emptyMember _ :: rest => by rw [neiMembers]; exact neiMembers_ok rest

/-- `neiType` diagnostics invariant. -/
theorem neiType_ok : (ty : TsType) → ∀ d ∈ neiType ty, DiagOk d
  | .keywordType _ => by rw [neiType]; exact mem_nil_elim
  | .typeLit members _ => by rw [neiType]; exact neiTypeElems_ok members

/-- `neiTypeElems` diagnostics invariant. -/
theorem neiTypeElems_ok : (ms : List TsTypeElement) → ∀ d ∈ neiTypeElems ms, DiagOk d
  | [] => by rw [neiTypeElems]; exact mem_nil_elim
  | .propertySig key _ :: rest => by
    rw [neiTypeElems]; exact mem_append_elim (neiExpr_ok key) (neiTypeElems_ok rest)

end

end NoEmptyInterface

/-- A panicking run vacuously satisfies every pointwise predicate. -/
theorem allDiagO_none {P : Diagnostic → Prop} : AllDiagO P none :=
  fun _ h => nomatch h

/-- Lifting a pointwise list fact to `AllDiagO`. -/
theorem allDiagO_some {P : Diagnostic → Prop} {ds : List Diagnostic}
    (h : ∀ d ∈ ds, P d) : AllDiagO P (some ds) := by
  intro ds' h'
  cases h'
  exact h

/-- `AllDiagO` is preserved by `oapp`. -/
theorem allDiagO_oapp {P : Diagnostic → Prop} {o₁ o₂ : Option (List Diagnostic)}
    (h₁ : AllDiagO P o₁) (h₂ : AllDiagO P o₂) : AllDiagO P (oapp o₁ o₂) := by
  cases o₁ with
  | none => exact allDiagO_none
  | some xs =>
    cases o₂ with
    | none => exact allDiagO_none
    | some ys =>
      rw [oapp]
      exact allDiagO_some (mem_append_elim (h₁ xs rfl) (h₂ ys rfl))

namespace NoDuplicateCase

/-- Every diagnostic of a non-panicking case check has the rule's code,
message and hint. -/
theorem checkCases_ok (σ : StrSet) (sm : SourceMap) :
    (cs : List SwitchCase) → (seen : σ.S) → AllDiagO DiagOk (checkCases σ sm cs seen)
  | [], seen => by rw [checkCases]; exact allDiagO_some mem_nil_elim
  | .mk none cons sp :: rest, seen => by
    rw [checkCases]; exact checkCases_ok σ sm rest seen
  | .mk (some test) cons sp :: rest, seen => by
    rw [checkCases]
    intro ds h d hd
    split at h
    · exact nomatch h
    · rename_i txt hsm
      split at h
      · exact nomatch h
      · rename_i ds' hrec
        cases h
        rcases List.mem_append.mp hd with h' | h'
        · split at h'
          · rw [List.mem_singleton] at h'; subst h'; exact ⟨rfl, rfl, rfl⟩
          · simp at h'
        · exact checkCases_ok σ sm rest (σ.insert seen txt) ds' hrec d h'

mutual

/-- Every diagnostic of a non-panicking `ndcStmt` run has the rule's code,
message and hint. -/
theorem ndcStmt_ok (σ : StrSet) (sm : SourceMap) :
    (s : Stmt) → AllDiagO DiagOk (ndcStmt σ sm s)
  | .emptyStmt _ => by rw [ndcStmt]; exact allDiagO_some mem_nil_elim
  | .exprStmt e _ => by rw [ndcStmt]; exact ndcExpr_ok σ sm e
  | .blockStmt ss _ => by rw [ndcStmt]; exact ndcStmts_ok σ sm ss
  | .ifStmt t c a _ => by
    rw [ndcStmt]
    exact allDiagO_oapp (ndcExpr_ok σ sm t) (allDiagO_oapp (ndcStmt_ok σ sm c) (ndcOptStmt_ok σ sm a))
  | .switchStmt _ cases _ => by rw [ndcStmt]; exact checkCases_ok σ sm cases σ.empty
  | .whileStmt t b _ => by
    rw [ndcStmt]; exact allDiagO_oapp (ndcExpr_ok σ sm t) (ndcStmt_ok σ sm b)
  | .doWhileStmt t b _ => by
    rw [ndcStmt]; exact allDiagO_oapp (ndcExpr_ok σ sm t) (ndcStmt_ok σ sm b)
  | .forStmt i t u b _ => by
    rw [ndcStmt]
    exact allDiagO_oapp (ndcOptExpr_ok σ sm i) (allDiagO_oapp (ndcOptExpr_ok σ sm t) (allDiagO_oapp (ndcOptExpr_ok σ sm u) (ndcStmt_ok σ sm b)))
  | .forInStmt l r b _ => by
    rw [ndcStmt]
    exact allDiagO_oapp (ndcPat_ok σ sm l) (allDiagO_oapp (ndcExpr_ok σ sm r) (ndcStmt_ok σ sm b))
  | .forOfStmt l r b _ => by
    rw [ndcStmt]
    exact allDiagO_oapp (ndcPat_ok σ sm l) (allDiagO_oapp (ndcExpr_ok σ sm r) (ndcStmt_ok σ sm b))
  | .withStmt o b _ => by
    rw [ndcStmt]; exact allDiagO_oapp (ndcExpr_ok σ sm o) (ndcStmt_ok σ sm b)
  | .labeledStmt _ b _ => by rw [ndcStmt]; exact ndcStmt_ok σ sm b
  | .classDecl _ ms _ => by rw [ndcStmt]; exact ndcMembers_ok σ sm ms
  | .tsInterfaceDeclStmt _ => by rw [ndcStmt]; exact allDiagO_some mem_nil_elim
  | .tsModuleDecl _ body _ => by rw [ndcStmt]; exact ndcStmts_ok σ sm body
  | .tsTypeAliasDecl _ _ _ => by rw [ndcStmt]; exact allDiagO_some mem_nil_elim

/-- `ndcStmts` diagnostics invariant. -/
theorem ndcStmts_ok (σ : StrSet) (sm : SourceMap) :
    (ss : List Stmt) → AllDiagO DiagOk (ndcStmts σ sm ss)
  | [] => by rw [ndcStmts]; exact allDiagO_some mem_nil_elim
  | s :: rest => by
    rw [ndcStmts]; exact allDiagO_oapp (ndcStmt_ok σ sm s) (ndcStmts_ok σ sm rest)

/-- `ndcOptStmt` diagnostics invariant. -/
theorem ndcOptStmt_ok (σ : StrSet) (sm : SourceMap) :
    (a : Option Stmt) → AllDiagO DiagOk (ndcOptStmt σ sm a)
  | none => by rw [ndcOptStmt]; exact allDiagO_some mem_nil_elim
  | some s => by rw [ndcOptStmt]; exact ndcStmt_ok σ sm s

/-- `ndcExpr` diagnostics invariant. -/
theorem ndcExpr_ok (σ : StrSet) (sm : SourceMap) :
    (e : Expr) → AllDiagO DiagOk (ndcExpr σ sm e)
  | .ident _ _ => by rw [ndcExpr]; exact allDiagO_some mem_nil_elim
  | .lit _ => by rw [ndcExpr]; exact allDiagO_some mem_nil_elim
  | .assignExpr l r _ => by
    rw [ndcExpr]; exact allDiagO_oapp (ndcPat_ok σ sm l) (ndcExpr_ok σ sm r)
  | .binExpr l r _ => by
    rw [ndcExpr]; exact allDiagO_oapp (ndcExpr_ok σ sm l) (ndcExpr_ok σ sm r)
  | .fnExpr body _ => by rw [ndcExpr]; exact ndcStmts_ok σ sm body
  | .tsAsExpr e _ _ => by rw [ndcExpr]; exact ndcExpr_ok σ sm e

/-- `ndcOptExpr` diagnostics invariant. -/
theorem ndcOptExpr_ok (σ : StrSet) (sm : SourceMap) :
    (e : Option Expr) → AllDiagO DiagOk (ndcOptExpr σ sm e)
  | none => by rw [ndcOptExpr]; exact allDiagO_some mem_nil_elim
  | some e => by rw [ndcOptExpr]; exact ndcExpr_ok σ sm e

/-- `ndcPat` diagnostics invariant. -/
theorem ndcPat_ok (σ : StrSet) (sm : SourceMap) :
    (p : Pat) → AllDiagO DiagOk (ndcPat σ sm p)
  | .identPat _ _ => by rw [ndcPat]; exact allDiagO_some mem_nil_elim
  | .memberPat _ => by rw [ndcPat]; exact allDiagO_some mem_nil_elim
  | .arrayPat elems _ => by rw [ndcPat]; exact ndcPatElems_ok σ sm elems
  | .objectPat props _ => by rw [ndcPat]; exact ndcProps_ok σ sm props
  | .assignPat l r _ => by
    rw [ndcPat]; exact allDiagO_oapp (ndcPat_ok σ sm l) (ndcExpr_ok σ sm r)
  | .restPat a _ => by rw [ndcPat]; exact ndcPat_ok σ sm a
  | .exprPat e _ => by rw [ndcPat]; exact ndcExpr_ok σ sm e

/-- `ndcPatElems` diagnostics invariant. -/
theorem ndcPatElems_ok (σ : StrSet) (sm : SourceMap) :
    (elems : List (Option Pat)) → AllDiagO DiagOk (ndcPatElems σ sm elems)
  | [] => by rw [ndcPatElems]; exact allDiagO_some mem_nil_elim
  | none :: rest => by rw [ndcPatElems]; exact ndcPatElems_ok σ sm rest
  | some p :: rest => by
    rw [ndcPatElems]; exact allDiagO_oapp (ndcPat_ok σ sm p) (ndcPatElems_ok σ sm rest)

/-- `ndcProps` diagnostics invariant. -/
theorem ndcProps_ok (σ : StrSet) (sm : SourceMap) :
    (props : List ObjPatProp) → AllDiagO DiagOk (ndcProps σ sm props)
  | [] => by rw [ndcProps]; exact allDiagO_some mem_nil_elim
  | .keyValue v _ :: rest => by
    rw [ndcProps]; exact allDiagO_oapp (ndcPat_ok σ sm v) (ndcProps_ok σ sm rest)
  | .shorthand _ _ :: rest => by rw [ndcProps]; exact ndcProps_ok σ sm rest
  | .rest a _ :: rest => by
    rw [ndcProps]; exact allDiagO_oapp (ndcPat_ok σ sm a) (ndcProps_ok σ sm rest)

/-- `ndcMembers` diagnostics invariant. -/
theorem ndcMembers_ok (σ : StrSet) (sm : SourceMap) :
    (ms : List ClassMember) → AllDiagO DiagOk (ndcMembers σ sm ms)
  | [] => by rw [ndcMembers]; exact allDiagO_some mem_nil_elim
  | .method body _ :: rest => by
    rw [ndcMembers]; exact allDiagO_oapp (ndcStmts_ok σ sm body) (ndcMembers_ok σ sm rest)
  | .emptyMember _ :: rest => by rw [ndcMembers]; exact ndcMembers_ok σ sm rest

end

end NoDuplicateCase

namespace NoDuplicateCase

/-- The case check is insensitive to the set implementation: any two
implementations of the seen-snippet set whose current states agree on
membership produce identical diagnostics. -/
theorem checkCases_congr (σ₁ σ₂ : StrSet) (sm : SourceMap) :
    (cs : List SwitchCase) → (s₁ : σ₁.S) → (s₂ : σ₂.S) →
    (hmem : ∀ x, σ₁.mem s₁ x = σ₂.mem s₂ x) →
    checkCases σ₁ sm cs s₁ = checkCases σ₂ sm cs s₂
  | [], s₁, s₂, hmem => by rw [checkCases, checkCases]
  | .mk none cons sp :: rest, s₁, s₂, hmem => by
    rw [checkCases, checkCases]
    exact checkCases_congr σ₁ σ₂ sm rest s₁ s₂ hmem
  | .mk (some test) cons sp :: rest, s₁, s₂, hmem => by
    rw [checkCases, checkCases]
    cases hsm : sm test.span with
    | none => rfl
    | some txt =>
      show (match checkCases σ₁ sm rest (σ₁.insert s₁ txt) with
            | none => none
            | some ds =>
              some ((if σ₁.mem s₁ txt then [(⟨test.span, code, message, hint⟩ : Diagnostic)] else []) ++ ds)) =
           (match checkCases σ₂ sm rest (σ₂.insert s₂ txt) with
            | none => none
            | some ds =>
              some ((if σ₂.mem s₂ txt then [(⟨test.span, code, message, hint⟩ : Diagnostic)] else []) ++ ds))
      rw [checkCases_congr σ₁ σ₂ sm rest (σ₁.insert s₁ txt) (σ₂.insert s₂ txt)
            (fun y => by rw [σ₁.mem_insert, σ₂.mem_insert, hmem y]),
          hmem txt]

mutual

/-- The whole `NoDuplicateCase` traversal is insensitive to the set
implementation. -/
theorem ndcStmt_congr (σ₁ σ₂ : StrSet) (sm : SourceMap) :
    (s : Stmt) → ndcStmt σ₁ sm s = ndcStmt σ₂ sm s
  | .emptyStmt _ => by rw [ndcStmt, ndcStmt]
  | .exprStmt e _ => by rw [ndcStmt, ndcStmt]; exact ndcExpr_congr σ₁ σ₂ sm e
  | .blockStmt ss _ => by rw [ndcStmt, ndcStmt]; exact ndcStmts_congr σ₁ σ₂ sm ss
  | .ifStmt t c a _ => by
    rw [ndcStmt, ndcStmt, ndcExpr_congr σ₁ σ₂ sm t, ndcStmt_congr σ₁ σ₂ sm c,
      ndcOptStmt_congr σ₁ σ₂ sm a]
  | .switchStmt _ cases _ => by
    rw [ndcStmt, ndcStmt]
    exact checkCases_congr σ₁ σ₂ sm cases σ₁.empty σ₂.empty
      (fun x => by rw [σ₁.mem_empty, σ₂.mem_empty])
  | .whileStmt t b _ => by
    rw [ndcStmt, ndcStmt, ndcExpr_congr σ₁ σ₂ sm t, ndcStmt_congr σ₁ σ₂ sm b]
  | .doWhileStmt t b _ => by
    rw [ndcStmt, ndcStmt, ndcExpr_congr σ₁ σ₂ sm t, ndcStmt_congr σ₁ σ₂ sm b]
  | .forStmt i t u b _ => by
    rw [ndcStmt, ndcStmt, ndcOptExpr_congr σ₁ σ₂ sm i, ndcOptExpr_congr σ₁ σ₂ sm t,
      ndcOptExpr_congr σ₁ σ₂ sm u, ndcStmt_congr σ₁ σ₂ sm b]
  | .forInStmt l r b _ => by
    rw [ndcStmt, ndcStmt, ndcPat_congr σ₁ σ₂ sm l, ndcExpr_congr σ₁ σ₂ sm r,
      ndcStmt_congr σ₁ σ₂ sm b]
  | .forOfStmt l r b _ => by
    rw [ndcStmt, ndcStmt, ndcPat_congr σ₁ σ₂ sm l, ndcExpr_congr σ₁ σ₂ sm r,
      ndcStmt_congr σ₁ σ₂ sm b]
  | .withStmt o b _ => by
    rw [ndcStmt, ndcStmt, ndcExpr_congr σ₁ σ₂ sm o, ndcStmt_congr σ₁ σ₂ sm b]
  | .labeledStmt _ b _ => by rw [ndcStmt, ndcStmt]; exact ndcStmt_congr σ₁ σ₂ sm b
  | .classDecl _ ms _ => by rw [ndcStmt, ndcStmt]; exact ndcMembers_congr σ₁ σ₂ sm ms
  | .tsInterfaceDeclStmt _ => by rw [ndcStmt, ndcStmt]
  | .tsModuleDecl _ body _ => by rw [ndcStmt, ndcStmt]; exact ndcStmts_congr σ₁ σ₂ sm body
  | .tsTypeAliasDecl _ _ _ => by rw [ndcStmt, ndcStmt]

/-- Set-implementation independence for statement lists. -/
theorem ndcStmts_congr (σ₁ σ₂ : StrSet) (sm : SourceMap) :
    (ss : List Stmt) → ndcStmts σ₁ sm ss = ndcStmts σ₂ sm ss
  | [] => by rw [ndcStmts, ndcStmts]
  | s :: rest => by
    rw [ndcStmts, ndcStmts, ndcStmt_congr σ₁ σ₂ sm s, ndcStmts_congr σ₁ σ₂ sm rest]

/-- Set-implementation independence for optional statements. -/
theorem ndcOptStmt_congr (σ₁ σ₂ : StrSet) (sm : SourceMap) :
    (a : Option Stmt) → ndcOptStmt σ₁ sm a = ndcOptStmt σ₂ sm a
  | none => by rw [ndcOptStmt, ndcOptStmt]
  | some s => by rw [ndcOptStmt, ndcOptStmt]; exact ndcStmt_congr σ₁ σ₂ sm s

/-- Set-implementation independence for expressions. -/
theorem ndcExpr_congr (σ₁ σ₂ : StrSet) (sm : SourceMap) :
    (e : Expr) → ndcExpr σ₁ sm e = ndcExpr σ₂ sm e
  | .ident _ _ => by rw [ndcExpr, ndcExpr]
  | .lit _ => by rw [ndcExpr, ndcExpr]
  | .assignExpr l r _ => by
    rw [ndcExpr, ndcExpr, ndcPat_congr σ₁ σ₂ sm l, ndcExpr_congr σ₁ σ₂ sm r]
  | .binExpr l r _ => by
    rw [ndcExpr, ndcExpr, ndcExpr_congr σ₁ σ₂ sm l, ndcExpr_congr σ₁ σ₂ sm r]
  | .fnExpr body _ => by rw [ndcExpr, ndcExpr]; exact ndcStmts_congr σ₁ σ₂ sm body
  | .tsAsExpr e _ _ => by rw [ndcExpr, ndcExpr]; exact ndcExpr_congr σ₁ σ₂ sm e

/-- Set-implementation independence for optional expressions. -/
theorem ndcOptExpr_congr (σ₁ σ₂ : StrSet) (sm : SourceMap) :
    (e : Option Expr) → ndcOptExpr σ₁ sm e = ndcOptExpr σ₂ sm e
  | none => by rw [ndcOptExpr, ndcOptExpr]
  | some e => by rw [ndcOptExpr, ndcOptExpr]; exact ndcExpr_congr σ₁ σ₂ sm e

/-- Set-implementation independence for patterns. -/
theorem ndcPat_congr (σ₁ σ₂ : StrSet) (sm : SourceMap) :
    (p : Pat) → ndcPat σ₁ sm p = ndcPat σ₂ sm p
  | .identPat _ _ => by rw [ndcPat, ndcPat]
  | .memberPat _ => by rw [ndcPat, ndcPat]
  | .arrayPat elems _ => by rw [ndcPat, ndcPat]; exact ndcPatElems_congr σ₁ σ₂ sm elems
  | .objectPat props _ => by rw [ndcPat, ndcPat]; exact ndcProps_congr σ₁ σ₂ sm props
  | .assignPat l r _ => by
    rw [ndcPat, ndcPat, ndcPat_congr σ₁ σ₂ sm l, ndcExpr_congr σ₁ σ₂ sm r]
  | .restPat a _ => by rw [ndcPat, ndcPat]; exact ndcPat_congr σ₁ σ₂ sm a
  | .exprPat e _ => by rw [ndcPat, ndcPat]; exact ndcExpr_congr σ₁ σ₂ sm e

/-- Set-implementation independence for array-pattern elements. -/
theorem ndcPatElems_congr (σ₁ σ₂ : StrSet) (sm : SourceMap) :
    (elems : List (Option Pat)) → ndcPatElems σ₁ sm elems = ndcPatElems σ₂ sm elems
  | [] => by rw [ndcPatElems, ndcPatElems]
  | none :: rest => by rw [ndcPatElems, ndcPatElems]; exact ndcPatElems_congr σ₁ σ₂ sm rest
  | some p :: rest => by
    rw [ndcPatElems, ndcPatElems, ndcPat_congr σ₁ σ₂ sm p, ndcPatElems_congr σ₁ σ₂ sm rest]

/-- Set-implementation independence for object-pattern properties. -/
theorem ndcProps_congr (σ₁ σ₂ : StrSet) (sm : SourceMap) :
    (props : List ObjPatProp) → ndcProps σ₁ sm props = ndcProps σ₂ sm props
  | [] => by rw [ndcProps, ndcProps]
  | .keyValue v _ :: rest => by
    rw [ndcProps, ndcProps, ndcPat_congr σ₁ σ₂ sm v, ndcProps_congr σ₁ σ₂ sm rest]
  | .shorthand _ _ :: rest => by rw [ndcProps, ndcProps]; exact ndcProps_congr σ₁ σ₂ sm rest
  | .rest a _ :: rest => by
    rw [ndcProps, ndcProps, ndcPat_congr σ₁ σ₂ sm a, ndcProps_congr σ₁ σ₂ sm rest]

/-- Set-implementation independence for class members. -/
theorem ndcMembers_congr (σ₁ σ₂ : StrSet) (sm : SourceMap) :
    (ms : List ClassMember) → ndcMembers σ₁ sm ms = ndcMembers σ₂ sm ms
  | [] => by rw [ndcMembers, ndcMembers]
  | .method body _ :: rest => by
    rw [ndcMembers, ndcMembers, ndcStmts_congr σ₁ σ₂ sm body, ndcMembers_congr σ₁ σ₂ sm rest]
  | .emptyMember _ :: rest => by
    rw [ndcMembers, ndcMembers]; exact ndcMembers_congr σ₁ σ₂ sm rest

end

end NoDuplicateCase

/-! ## Structural lemmas about the traversals -/

/-- `some []` is a left unit of `oapp`. -/
theorem oapp_some_nil : (o : Option (List Diagnostic)) → oapp (some []) o = o
  | none => rfl
  | some ys => by rw [oapp, List.nil_append]

/-- `oapp` is associative. -/
theorem oapp_assoc : (o₁ o₂ o₃ : Option (List Diagnostic)) →
    oapp (oapp o₁ o₂) o₃ = oapp o₁ (oapp o₂ o₃)
  | none, _, _ => rfl
  | some _, none, _ => rfl
  | some _, some _, none => rfl
  | some xs, some ys, some zs => by
    rw [oapp, oapp, oapp, oapp, List.append_assoc]

namespace NoDuplicateCase

/-- The traversal is a homomorphism for statement-list concatenation: the
diagnostics of adjacent top-level statements (in particular of sibling
switch statements) are computed independently and concatenated, so no
switch's seen-set state can leak into another's. -/
theorem ndcStmts_append (σ : StrSet) (sm : SourceMap) :
    (xs ys : List Stmt) →
    ndcStmts σ sm (xs ++ ys) = oapp (ndcStmts σ sm xs) (ndcStmts σ sm ys)
  | [], ys => by rw [List.nil_append, ndcStmts, oapp_some_nil]
  | x :: rest, ys => by
    rw [List.cons_append, ndcStmts, ndcStmts_append σ sm rest ys]
    rw [ndcStmts, oapp_assoc]

/-- The case check reads nothing of a switch case but its test's span (the
snippet is a function of the span through the source map): two case lists
whose test-span sequences agree produce identical results from any common
seen-set state, whatever their consequent statement bodies are. -/
theorem checkCases_eq_of_spans (σ : StrSet) (sm : SourceMap) :
    (cs₁ cs₂ : List SwitchCase) →
    cs₁.map (fun c => c.test.map Expr.span) = cs₂.map (fun c => c.test.map Expr.span) →
    (seen : σ.S) → checkCases σ sm cs₁ seen = checkCases σ sm cs₂ seen
  | [], [], _, _ => rfl
  | [], _ :: _, h, _ => by simp at h
  | _ :: _, [], h, _ => by simp at h
  | .mk t₁ k₁ sp₁ :: r₁, .mk t₂ k₂ sp₂ :: r₂, h, seen => by
    simp only [List.map_cons, List.cons.injEq, SwitchCase.test] at h
    obtain ⟨h1, h2⟩ := h
    cases t₁ with
    | none =>
      cases t₂ with
      | none =>
        rw [checkCases, checkCases]
        exact checkCases_eq_of_spans σ sm r₁ r₂ h2 seen
      | some e₂ => simp at h1
    | some e₁ =>
      cases t₂ with
      | none => simp at h1
      | some e₂ =>
        simp only [Option.map_some', Option.some.injEq] at h1
        rw [checkCases, checkCases, ← h1]
        cases hsm : sm e₁.span with
        | none => rfl
        | some txt =>
          show (match checkCases σ sm r₁ (σ.insert seen txt) with
                | none => none
                | some ds =>
                  some ((if σ.mem seen txt
                         then [(⟨e₁.span, code, message, hint⟩ : Diagnostic)] else []) ++ ds)) =
               (match checkCases σ sm r₂ (σ.insert seen txt) with
                | none => none
                | some ds =>
                  some ((if σ.mem seen txt
                         then [(⟨e₁.span, code, message, hint⟩ : Diagnostic)] else []) ++ ds))
          rw [checkCases_eq_of_spans σ sm r₁ r₂ h2 (σ.insert seen txt)]

/-- If any case's test span is unresolvable, the whole case check panics
(`span_to_snippet(span).unwrap()`), regardless of any diagnostics found
before or after it. -/
theorem checkCases_panics (σ : StrSet) (sm : SourceMap) :
    (cs : List SwitchCase) → (seen : σ.S) →
    (∃ c ∈ cs, ∃ t, c.test = some t ∧ sm t.span = none) →
    checkCases σ sm cs seen = none
  | [], _, h => by simp at h
  | .mk t k sp :: rest, seen, h => by
    rcases h with ⟨c, hc, t', ht', hsm⟩
    rcases List.mem_cons.mp hc with hhead | htail
    · subst hhead
      rw [SwitchCase.test] at ht'
      subst ht'
      rw [checkCases, hsm]
    · cases t with
      | none =>
        rw [checkCases]
        exact checkCases_panics σ sm rest seen ⟨c, htail, t', ht', hsm⟩
      | some e =>
        rw [checkCases]
        cases hse : sm e.span with
        | none => rfl
        | some txt =>
          show (match checkCases σ sm rest (σ.insert seen txt) with
                | none => none
                | some ds =>
                  some ((if σ.mem seen txt
                         then [(⟨e.span, code, message, hint⟩ : Diagnostic)] else []) ++ ds)) = none
          rw [checkCases_panics σ sm rest (σ.insert seen txt) ⟨c, htail, t', ht', hsm⟩]

end NoDuplicateCase

namespace NoExAssign

/-- Characterization of the `visit_assign_expr` loop: it emits exactly one
diagnostic per catch-bound identifier of the list, in order, each located
at the assignment's span; identifiers with no binding or a non-catch
binding contribute nothing. -/
theorem checkIds_eq (scope : ScopeMap) (sp : Span) :
    (ids : List Ident) →
    checkIds scope sp ids =
      (ids.filter (fun id => isCatchBound scope id)).map
        (fun _ => (⟨sp, code, message, hint⟩ : Diagnostic))
  | [] => by rw [checkIds]; rfl
  | id :: rest => by
    have ih := checkIds_eq scope sp rest
    cases hs : scope id with
    | some v =>
      by_cases hk : v.kind = BindingKind.CatchClause
      · simp [checkIds, List.filter_cons, isCatchBound, hs, hk, ih]
      · simp [checkIds, List.filter_cons, isCatchBound, hs, hk, ih]
    | none => simp [checkIds, List.filter_cons, isCatchBound, hs, ih]

end NoExAssign

/-! ## The claims -/

/-- Claim C1 counterexample: in `nestedSwitchProg` a switch with two
textually duplicate case tests sits inside another switch's case body.  A
per-switch check of the nested switch's cases from a fresh empty set would
report the duplicate, yet the rule over the whole program reports nothing:
`visit_switch_stmt` never re-dispatches into the switch's children, so the
nested switch is never visited.  This refutes the claim that every switch,
including nested ones, is checked. -/
theorem claim_C1_counterexample :
    NoDuplicateCase.lintProgram listStrSet smSame nestedSwitchProg = some [] ∧
    NoDuplicateCase.checkCases listStrSet smSame innerSwitchCases listStrSet.empty =
      some [⟨⟨57, 60⟩, NoDuplicateCase.code, NoDuplicateCase.message, NoDuplicateCase.hint⟩] :=
  ⟨rfl, rfl⟩

/-- Claim C1 (amended): every switch statement the traversal visits is
checked with a seen-snippet set initialized empty at entry to that switch,
and the checks of distinct visited switches are independent (the traversal
is a homomorphism for statement-list concatenation); however, a switch
nested inside another switch's subtree — in particular inside a case body
— is never visited, and its duplicate case tests produce no diagnostics. -/
theorem claim_C1 :
    (∀ (σ : StrSet) (sm : SourceMap) (disc : Expr) (cases : List SwitchCase) (sp : Span),
      NoDuplicateCase.ndcStmt σ sm (.switchStmt disc cases sp) =
        NoDuplicateCase.checkCases σ sm cases σ.empty) ∧
    (∀ (σ : StrSet) (sm : SourceMap) (xs ys : List Stmt),
      NoDuplicateCase.ndcStmts σ sm (xs ++ ys) =
        oapp (NoDuplicateCase.ndcStmts σ sm xs) (NoDuplicateCase.ndcStmts σ sm ys)) ∧
    NoDuplicateCase.lintProgram listStrSet smSame nestedSwitchProg = some [] :=
  ⟨fun σ sm disc cases sp => by rw [NoDuplicateCase.ndcStmt],
   fun σ sm xs ys => NoDuplicateCase.ndcStmts_append σ sm xs ys,
   rfl⟩

/-- Claim C2 counterexample: the assignment `[a, b] = c` with both `a` and
`b` bound by a catch clause produces two `no-ex-assign` diagnostics (both
at the assignment's span), not at most one: the `visit_assign_expr` loop
has no early exit. -/
theorem claim_C2_counterexample :
    NoExAssign.lintProgram catchScopeAB destructAssignProg =
      [⟨⟨20, 31⟩, NoExAssign.code, NoExAssign.message, NoExAssign.hint⟩,
       ⟨⟨20, 31⟩, NoExAssign.code, NoExAssign.message, NoExAssign.hint⟩] ∧
    (NoExAssign.lintProgram catchScopeAB destructAssignProg).length ≠ 1 :=
  ⟨rfl, by decide⟩

/-- Claim C2 (amended): for every assignment expression the rule emits one
diagnostic per LHS identifier whose binding is `CatchClause` — so several
catch-bound names in one destructuring assignment yield several
diagnostics, all at the assignment expression's span (and exactly one when
exactly one LHS identifier is catch-bound). -/
theorem claim_C2 : ∀ (scope : ScopeMap) (left : Pat) (right : Expr) (sp : Span),
    NoExAssign.neaExpr scope (.assignExpr left right sp) =
      ((find_lhs_ids left).filter (fun id => NoExAssign.isCatchBound scope id)).map
        (fun _ => ⟨sp, NoExAssign.code, NoExAssign.message, NoExAssign.hint⟩) :=
  fun scope left right sp => by
    rw [NoExAssign.neaExpr]
    exact NoExAssign.checkIds_eq scope sp (find_lhs_ids left)

/-- Claim C3 counterexample: when a case test's span cannot be resolved to
a source snippet, the rule does not continue with no diagnostic — the
`span_to_snippet(span).unwrap()` panics and the run aborts (`none`). -/
theorem claim_C3_counterexample :
    NoDuplicateCase.lintProgram listStrSet smFail oneCaseProg = none := rfl

/-- Claim C3 (amended): a scope lookup yielding no binding produces no
diagnostic and traversal continues normally; but an unresolvable case-test
span makes the DuplicateSwitchCase rule panic (the run aborts), it is not
treated as "do not fire". -/
theorem claim_C3 :
    (∀ (scope : ScopeMap) (left : Pat) (right : Expr) (sp : Span),
      (∀ id ∈ find_lhs_ids left, scope id = none) →
      NoExAssign.neaExpr scope (.assignExpr left right sp) = []) ∧
    (∀ (σ : StrSet) (sm : SourceMap) (cs : List SwitchCase) (seen : σ.S),
      (∃ c ∈ cs, ∃ t, c.test = some t ∧ sm t.span = none) →
      NoDuplicateCase.checkCases σ sm cs seen = none) := by
  constructor
  · intro scope left right sp hnone
    rw [NoExAssign.neaExpr, NoExAssign.checkIds_eq]
    have hfil : (find_lhs_ids left).filter (fun id => NoExAssign.isCatchBound scope id) = [] := by
      rw [List.filter_eq_nil_iff]
      intro a ha
      simp [NoExAssign.isCatchBound, hnone a ha]
    rw [hfil]; rfl
  · exact fun σ sm cs seen h => NoDuplicateCase.checkCases_panics σ sm cs seen h

/-- Claim C3 witness: an assignment whose only LHS identifier is
unresolved yields no diagnostic, and a concrete unresolvable case-test
span makes the case check abort. -/
theorem claim_C3_witness :
    NoExAssign.neaExpr emptyScope
      (.assignExpr (.identPat ⟨"e", 0⟩ ⟨0, 1⟩) (.lit ⟨4, 5⟩) ⟨0, 5⟩) = [] ∧
    NoDuplicateCase.checkCases listStrSet smFail
      [.mk (some (.lit ⟨16, 19⟩)) [] ⟨11, 22⟩] listStrSet.empty = none :=
  ⟨claim_C3.1 emptyScope _ _ _ (by intro id hid; rfl),
   claim_C3.2 listStrSet smFail _ listStrSet.empty
     ⟨.mk (some (.lit ⟨16, 19⟩)) [] ⟨11, 22⟩, by simp, .lit ⟨16, 19⟩, rfl, rfl⟩⟩

/-- Claim C4 counterexample: for `interface Foo \x7b\x7d` the rule's
message is "An empty interface is equivalent to `\x7b\x7d`." — the claim's
message text, which lacks the backticks around the braces, is not the
emitted one. -/
theorem claim_C4_counterexample :
    NoEmptyInterface.lintProgram [.tsInterfaceDeclStmt ifaceFoo] =
      [⟨⟨0, 16⟩, NoEmptyInterface.code, NoEmptyInterface.messageEquivalent,
        NoEmptyInterface.hintRemove⟩] ∧
    NoEmptyInterface.messageEquivalent ≠ "An empty interface is equivalent to \x7b\x7d." :=
  ⟨rfl, by decide⟩

/-- Claim C4 (amended): an interface declaration is reported exactly when
its body has no members and its extends list has at most one entry, at the
declaration's own span; with zero extends entries the message is
"An empty interface is equivalent to `\x7b\x7d`." (backticks included)
with hint "Remove this interface or add members to this interface.", and
with one entry the distinct supertype message/hint pair is used. -/
theorem claim_C4 : ∀ (d : TsInterfaceDecl),
    (d.body.body.isEmpty = true → d.extendsList.length = 0 →
      NoEmptyInterface.checkInterfaceDecl d =
        [⟨d.span, NoEmptyInterface.code, NoEmptyInterface.messageEquivalent,
          NoEmptyInterface.hintRemove⟩]) ∧
    (d.body.body.isEmpty = true → d.extendsList.length = 1 →
      NoEmptyInterface.checkInterfaceDecl d =
        [⟨d.span, NoEmptyInterface.code, NoEmptyInterface.messageSupertype,
          NoEmptyInterface.hintSupertype⟩]) ∧
    (d.body.body.isEmpty = false → NoEmptyInterface.checkInterfaceDecl d = []) ∧
    (2 ≤ d.extendsList.length → NoEmptyInterface.checkInterfaceDecl d = []) := by
  intro d
  refine ⟨?_, ?_, ?_, ?_⟩
  · intro hb he
    have hnil : d.extendsList = [] := List.length_eq_zero.mp he
    simp [NoEmptyInterface.checkInterfaceDecl, hnil, hb]
  · intro hb he
    obtain ⟨x, hx⟩ := List.length_eq_one.mp he
    simp [NoEmptyInterface.checkInterfaceDecl, hx, hb]
  · intro hb
    simp [NoEmptyInterface.checkInterfaceDecl, hb]
  · intro he
    rw [NoEmptyInterface.checkInterfaceDecl, if_neg]
    rintro ⟨hle, _⟩
    omega

/-- Claim C4 witness: the three regimes at concrete declarations —
no extends (reported with the brace-equivalence pair), one extends
(reported with the supertype pair), two extends (not reported). -/
theorem claim_C4_witness :
    NoEmptyInterface.checkInterfaceDecl ifaceFoo =
      [⟨⟨0, 16⟩, NoEmptyInterface.code, NoEmptyInterface.messageEquivalent,
        NoEmptyInterface.hintRemove⟩] ∧
    NoEmptyInterface.checkInterfaceDecl ifaceBar =
      [⟨⟨33, 60⟩, NoEmptyInterface.code, NoEmptyInterface.messageSupertype,
        NoEmptyInterface.hintSupertype⟩] ∧
    NoEmptyInterface.checkInterfaceDecl ifaceTwo = [] :=
  ⟨(claim_C4 ifaceFoo).1 rfl rfl, (claim_C4 ifaceBar).2.1 rfl rfl,
   (claim_C4 ifaceTwo).2.2.2 (by decide)⟩

/-- Claim C5: StraySemicolon reports the stray semicolon between class
members of `class A \x7b a() \x7b\x7d; b() \x7b\x7d \x7d` at offset 16;
`for(;;);` produces no diagnostic (the empty statement is the loop body);
and `for(;;);;` produces exactly one diagnostic, at the second semicolon. -/
theorem claim_C5 :
    NoExtraSemi.lintProgram classProg =
      [⟨⟨16, 17⟩, NoExtraSemi.code, NoExtraSemi.message, NoExtraSemi.hint⟩] ∧
    NoExtraSemi.lintProgram forOkProg = [] ∧
    NoExtraSemi.lintProgram forBadProg =
      [⟨⟨8, 9⟩, NoExtraSemi.code, NoExtraSemi.message, NoExtraSemi.hint⟩] :=
  ⟨rfl, rfl, rfl⟩

/-- Claim C6 counterexample: the emitted DuplicateSwitchCase message is
"Duplicate values in `case` are not allowed" (with backticks around
`case`), not the claim's "Duplicate values in case are not allowed". -/
theorem claim_C6_counterexample :
    NoDuplicateCase.lintProgram listStrSet smSame dupProg =
      some [⟨⟨28, 31⟩, "no-duplicate-case",
        "Duplicate values in `case` are not allowed",
        "Remove or rename the duplicate case clause"⟩] ∧
    NoDuplicateCase.message ≠ "Duplicate values in case are not allowed" :=
  ⟨rfl, by decide⟩

/-- Claim C6 (amended): every diagnostic of a non-panicking
DuplicateSwitchCase run carries code `no-duplicate-case`, message
"Duplicate values in `case` are not allowed" (backticks included) and hint
"Remove or rename the duplicate case clause". -/
theorem claim_C6 : ∀ (σ : StrSet) (sm : SourceMap) (p : Program) (ds : List Diagnostic),
    NoDuplicateCase.lintProgram σ sm p = some ds →
    ∀ d ∈ ds, d.code = NoDuplicateCase.code ∧
      d.message = NoDuplicateCase.message ∧ d.hint = NoDuplicateCase.hint :=
  fun σ sm p ds h d hd => NoDuplicateCase.ndcStmts_ok σ sm p ds h d hd

/-- Claim C6 witness: the duplicate reported on `dupProg` carries the
rule's code, message and hint. -/
theorem claim_C6_witness :
    (⟨⟨28, 31⟩, NoDuplicateCase.code, NoDuplicateCase.message,
       NoDuplicateCase.hint⟩ : Diagnostic).code = NoDuplicateCase.code ∧
    (⟨⟨28, 31⟩, NoDuplicateCase.code, NoDuplicateCase.message,
       NoDuplicateCase.hint⟩ : Diagnostic).message = NoDuplicateCase.message ∧
    (⟨⟨28, 31⟩, NoDuplicateCase.code, NoDuplicateCase.message,
       NoDuplicateCase.hint⟩ : Diagnostic).hint = NoDuplicateCase.hint :=
  claim_C6 listStrSet smSame dupProg
    [⟨⟨28, 31⟩, NoDuplicateCase.code, NoDuplicateCase.message, NoDuplicateCase.hint⟩] rfl
    ⟨⟨28, 31⟩, NoDuplicateCase.code, NoDuplicateCase.message, NoDuplicateCase.hint⟩ (by simp)

/-- Claim C7: for every program, every diagnostic a rule emits carries
that rule's own `code()` value: `no-duplicate-case`, `no-ex-assign`,
`no-empty-interface`, `no-extra-semi` respectively. -/
theorem claim_C7 :
    (∀ (σ : StrSet) (sm : SourceMap) (p : Program) (ds : List Diagnostic),
      NoDuplicateCase.lintProgram σ sm p = some ds →
      ∀ d ∈ ds, d.code = NoDuplicateCase.code) ∧
    (∀ (scope : ScopeMap) (p : Program),
      ∀ d ∈ NoExAssign.lintProgram scope p, d.code = NoExAssign.code) ∧
    (∀ p : Program, ∀ d ∈ NoEmptyInterface.lintProgram p, d.code = NoEmptyInterface.code) ∧
    (∀ p : Program, ∀ d ∈ NoExtraSemi.lintProgram p, d.code = NoExtraSemi.code) :=
  ⟨fun σ sm p ds h d hd => (NoDuplicateCase.ndcStmts_ok σ sm p ds h d hd).1,
   fun scope p d hd => (NoExAssign.neaStmts_ok scope p d hd).1,
   fun p d hd => NoEmptyInterface.neiStmts_ok p d hd,
   fun p d hd => (NoExtraSemi.nesStmts_ok p d hd).1⟩

/-- Claim C7 witness: one concrete diagnostic of each rule carries that
rule's code. -/
theorem claim_C7_witness :
    (⟨⟨28, 31⟩, NoDuplicateCase.code, NoDuplicateCase.message,
       NoDuplicateCase.hint⟩ : Diagnostic).code = NoDuplicateCase.code ∧
    (⟨⟨20, 31⟩, NoExAssign.code, NoExAssign.message,
       NoExAssign.hint⟩ : Diagnostic).code = NoExAssign.code ∧
    (⟨⟨0, 16⟩, NoEmptyInterface.code, NoEmptyInterface.messageEquivalent,
       NoEmptyInterface.hintRemove⟩ : Diagnostic).code = NoEmptyInterface.code ∧
    (⟨⟨16, 17⟩, NoExtraSemi.code, NoExtraSemi.message,
       NoExtraSemi.hint⟩ : Diagnostic).code = NoExtraSemi.code :=
  ⟨claim_C7.1 listStrSet smSame dupProg _ rfl _ (by decide),
   claim_C7.2.1 catchScopeAB destructAssignProg _ (by decide),
   claim_C7.2.2.1 [.tsInterfaceDeclStmt ifaceFoo] _ (by decide),
   claim_C7.2.2.2 classProg _ (by decide)⟩

/-- Claim C8: a full run of the four rules over a program is
deterministic — its diagnostic sequence does not depend on the seen-set
implementation (the only internal state any rule keeps), so running the
same rules twice over the same program yields identical diagnostic
sequences. -/
theorem claim_C8 : ∀ (σ₁ σ₂ : StrSet) (sm : SourceMap) (scope : ScopeMap) (p : Program),
    lintAll σ₁ sm scope p = lintAll σ₂ sm scope p := by
  intro σ₁ σ₂ sm scope p
  unfold lintAll NoDuplicateCase.lintProgram
  rw [NoDuplicateCase.ndcStmts_congr σ₁ σ₂ sm p]

/-- Claim C9: EmptyInterface's traversal does not skip type-only or
ambient contexts — an empty interface inside a `declare module` body is
reported, and so is one nested inside a type-literal's computed key; the
other three rules skip type-only subtrees: the very nodes each of them
reports at top level (a catch-bound assignment, a stray empty statement, a
duplicate switch case) produce no diagnostic when placed inside a
type-only subtree. -/
theorem claim_C9 :
    NoEmptyInterface.lintProgram moduleProg =
      [⟨⟨33, 60⟩, NoEmptyInterface.code, NoEmptyInterface.messageSupertype,
        NoEmptyInterface.hintSupertype⟩] ∧
    NoEmptyInterface.lintProgram typeHostedProg =
      [⟨⟨110, 122⟩, NoEmptyInterface.code, NoEmptyInterface.messageEquivalent,
        NoEmptyInterface.hintRemove⟩] ∧
    NoExAssign.lintProgram catchScopeE typeHostedProg = [] ∧
    NoExtraSemi.lintProgram typeHostedProg = [] ∧
    NoDuplicateCase.lintProgram listStrSet smSame typeHostedProg = some [] ∧
    NoExAssign.lintProgram catchScopeE exprHostedProg =
      [⟨⟨70, 75⟩, NoExAssign.code, NoExAssign.message, NoExAssign.hint⟩] ∧
    NoExtraSemi.lintProgram exprHostedProg =
      [⟨⟨77, 78⟩, NoExtraSemi.code, NoExtraSemi.message, NoExtraSemi.hint⟩] ∧
    NoDuplicateCase.lintProgram listStrSet smSame exprHostedProg =
      some [⟨⟨100, 103⟩, NoDuplicateCase.code, NoDuplicateCase.message,
        NoDuplicateCase.hint⟩] :=
  ⟨rfl, rfl, rfl, rfl, rfl, rfl, rfl, rfl⟩

/-- Claim C10: the diagnostics DuplicateSwitchCase emits for a switch
statement depend only on the ordered sequence of its case-test spans (and
hence, through the shared source map, their snippets): two switches whose
case lists have equal test-span sequences produce identical diagnostics,
whatever their discriminants, case bodies or case spans. -/
theorem claim_C10 : ∀ (σ : StrSet) (sm : SourceMap) (disc₁ disc₂ : Expr)
    (cs₁ cs₂ : List SwitchCase) (sp₁ sp₂ : Span),
    cs₁.map (fun c => c.test.map Expr.span) = cs₂.map (fun c => c.test.map Expr.span) →
    NoDuplicateCase.ndcStmt σ sm (.switchStmt disc₁ cs₁ sp₁) =
      NoDuplicateCase.ndcStmt σ sm (.switchStmt disc₂ cs₂ sp₂) := by
  intro σ sm disc₁ disc₂ cs₁ cs₂ sp₁ sp₂ h
  rw [NoDuplicateCase.ndcStmt, NoDuplicateCase.ndcStmt]
  exact NoDuplicateCase.checkCases_eq_of_spans σ sm cs₁ cs₂ h _

/-- Claim C10 witness: two concrete switches with different discriminants,
case bodies and case spans but equal test-span sequences produce identical
results. -/
theorem claim_C10_witness :
    NoDuplicateCase.ndcStmt listStrSet smSame
      (.switchStmt (.ident ⟨"s", 0⟩ ⟨7, 8⟩)
        [.mk (some (.lit ⟨16, 19⟩)) [] ⟨11, 22⟩,
         .mk (some (.lit ⟨28, 31⟩)) [] ⟨23, 34⟩] ⟨0, 36⟩) =
    NoDuplicateCase.ndcStmt listStrSet smSame
      (.switchStmt (.lit ⟨99, 100⟩)
        [.mk (some (.ident ⟨"q", 7⟩ ⟨16, 19⟩)) [.emptyStmt ⟨20, 21⟩] ⟨11, 23⟩,
         .mk (some (.binExpr (.lit ⟨28, 29⟩) (.lit ⟨30, 31⟩) ⟨28, 31⟩)) [] ⟨23, 40⟩] ⟨0, 44⟩) :=
  claim_C10 listStrSet smSame _ _ _ _ _ _ (by decide)
